import Mathlib

/-
  Shallow embedding of the bypass-403 fuzzer core (src/bypass_403.py) and of the
  collaborator functions it calls (src/utility/configuration.py), together with
  proofs checking the specification's claims against it.

  Modelling conventions:
  * Python floats (timestamps, delays, time limits) are modelled as rationals ℚ.
  * `time.time()` is modelled as reading a clock stream `Env.clock : Nat → ℚ`;
    the fuzzer state carries the index of the next clock reading, and every
    `time.time()` call in the source consumes exactly one reading, in source
    order.
  * The network is an oracle `Env.response : Nat → HttpOutcome` indexed by the
    number of requests issued so far; `random.choice` over the user-agent
    catalog is an oracle index `Env.uaPick`.
  * The logger is a write-only list of messages in the state; file writes
    performed by the core are recorded in `St.files`.
  * Locked critical sections (`log_lock`, `results_lock`, `_request_timing_lock`)
    execute atomically in the source, so a sequence of entries into such a
    section from any number of threads is faithfully modelled by sequentially
    composing the body; this is how the rate-limiter and timeout-logging
    claims about concurrent callers are treated.
  * The thread-pool dispatch path (`num_threads > 1`) has genuinely
    nondeterministic scheduling; it is modelled separately by
    `collect_threaded_result`, a fold over the completion-ordered event list
    (the as_completed order, abstracted as an input).  Inside the whole-run
    interpreter the `num_threads > 1` branch is left as a stub returning no
    results, and whole-run theorems that depend on dispatch carry a
    `num_threads ≤ 1` hypothesis.
-/

namespace Bypass403

/-- A header mapping, as an insertion-ordered association list
(Python `dict[str, str]`). -/
abbrev Header := List (String × String)

/-- One logger line, tagged with the level used in the source. -/
inductive LogMsg where
  | info (s : String)
  | warning (s : String)
  | error (s : String)
deriving DecidableEq, Repr

/-- Outcome of one `requests.request` attempt, as decided by the network:
a response with a status code and content length, or one of the three
exception classes caught in `_make_single_request`. -/
inductive HttpOutcome where
  | response (status : Nat) (contentLen : Nat)
  | timeout
  | connError (emsg : String)
  | reqError (emsg : String)
deriving DecidableEq, Repr

/-- `FuzzerStaticConfig` (src/config/static_config.py), restricted to the
fields the core reads.  The collaborator callables `format_time_remaining`
and `color_status_code` are carried as function fields, exactly as the
source receives them. -/
structure StaticCfg where
  base_url : String
  path_file : List String
  url_file : List String
  method_file : List String
  header_file : List Header
  header : Option Header
  format_time_remaining : ℚ → String
  color_status_code : Nat → String → String

/-- `FuzzerRuntimeConfig` (src/config/runtime_config.py), restricted to the
fields the core reads.  Numeric caps and limits that the source guards with
`is not None` are `Option`-valued. -/
structure RuntimeCfg where
  max_headers : Option Nat
  max_methods : Option Nat
  time : Option ℚ
  delay : Option ℚ
  num_threads : Nat
  output_file : Option String
  filter_status_code : Option (List Nat)
  method : Option (List String)
  path_batch_size : Nat
  per_url_time_limit : Option ℚ

/-- The environment: clock stream, network oracle, user-agent catalog and
the random index used by `random.choice` for each request. -/
structure Env where
  clock : Nat → ℚ
  response : Nat → HttpOutcome
  uaPick : Nat → Nat
  user_agents : List String

/-- The mutable state of a `Fuzzer` instance plus the observable effects
(log lines, file writes) and the oracle cursors (`clk` clock readings used,
`req` requests issued). `base_url` mirrors the mutable `self.config.base_url`
slot that `_process_url_list` swaps and restores. -/
structure St where
  time_hit_logged : Bool
  stop_event : Bool
  logged_count : Nat
  scan_start_time : Option ℚ
  current_url_start_time : Option ℚ
  last_request_time : ℚ
  base_url : String
  clk : Nat
  req : Nat
  log : List LogMsg
  files : List (String × List String)

/-- Initial state of a freshly constructed `Fuzzer` (its `__init__`). -/
def mkInitSt (cfg : StaticCfg) : St :=
  { time_hit_logged := false
    stop_event := false
    logged_count := 0
    scan_start_time := none
    current_url_start_time := none
    last_request_time := 0
    base_url := cfg.base_url
    clk := 0
    req := 0
    log := []
    files := [] }

/-- `Constants.TIMEOUT` (src/config/constants.py): per-request network
timeout in seconds. -/
def TIMEOUT : Nat := 10

/-- `Constants.MAX_RESULT` (src/config/constants.py): maximum accumulated
results per dispatch; the spec's default 10000. -/
def MAX_RESULT : Nat := 10000

/-- `Constants.PROGRESS_LOG_INTERVAL` (src/config/constants.py). -/
def PROGRESS_LOG_INTERVAL : Nat := 100

/-- One `time.time()` call: read the next clock value and advance the
cursor. -/
def readClock (env : Env) (st : St) : ℚ × St :=
  (env.clock st.clk, { st with clk := st.clk + 1 })

def logInfo (m : String) (st : St) : St :=
  { st with log := st.log ++ [LogMsg.info m] }

def logWarn (m : String) (st : St) : St :=
  { st with log := st.log ++ [LogMsg.warning m] }

def logErr (m : String) (st : St) : St :=
  { st with log := st.log ++ [LogMsg.error m] }

/-- Python truthiness of an optional number: `None` and `0` are falsy. -/
def pyTruthyQ : Option ℚ → Bool
  | none => false
  | some x => x ≠ 0

/-- Python truthiness of an optional string: `None` and `""` are falsy. -/
def pyTruthyStr : Option String → Bool
  | none => false
  | some s => s ≠ ""

/-- `s.rstrip("/")`: drop trailing slash characters. -/
def pyRstripSlash (s : String) : String :=
  ((s.toList.reverse.dropWhile (fun c => c = '/')).reverse).asString

/-- `str(e)[:100]` on an exception message. -/
def pyTake100 (s : String) : String :=
  (s.toList.take 100).asString

/-- Substring test (`needle in haystack` on Python strings, for nonempty
needles). -/
def containsSub (haystack needle : String) : Bool :=
  (haystack.splitOn needle).length > 1

/-- Python `dict` repr of a header mapping, used when a result record
interpolates `{headers}`. -/
def reprHeader (h : Header) : String :=
  "\x7b" ++ String.intercalate ", "
    (h.map (fun kv => "'" ++ kv.1 ++ "': '" ++ kv.2 ++ "'")) ++ "\x7d"

/-- The truncation applied after `_get_methods` / `_get_headers` resolve
their source: `if cap is not None and len(l) > cap: l = l[:cap]`. -/
def capList (cap : Option Nat) (l : List α) : List α :=
  match cap with
  | none => l
  | some k => if l.length > k then l.take k else l

/-- `_get_methods` (src/bypass_403.py:434).  Note the built-in default is
returned directly, before the `max_methods` truncation is reached. -/
def get_methods (cfg : StaticCfg) (rc : RuntimeCfg) : List String :=
  match rc.method with
  | some (m :: ms) => capList rc.max_methods ((m :: ms).map String.toUpper)
  | _ =>
    match cfg.method_file with
    | m :: ms => capList rc.max_methods ((m :: ms).map String.toUpper)
    | [] => ["GET", "POST", "PATCH", "HEAD"]

/-- `_get_headers` (src/bypass_403.py:456).  All three sources, the default
single empty mapping included, flow through the `max_headers` truncation. -/
def get_headers (cfg : StaticCfg) (rc : RuntimeCfg) : List Header :=
  let headers : List Header :=
    match cfg.header with
    | some (kv :: rest) => [kv :: rest]
    | _ =>
      match cfg.header_file with
      | h :: hs => h :: hs
      | [] => [([] : Header)]
  capList rc.max_headers headers

/-- `_generate_url_variations` (src/bypass_403.py:478): the fixed catalog of
18 URL mutations for one path; the source extends its accumulator list with
exactly these, in this order. -/
def generate_url_variations (base_url path : String) : List String :=
  [ base_url ++ "/" ++ path
  , base_url ++ "/%2e/" ++ path
  , base_url ++ "/" ++ path ++ "/."
  , base_url ++ "//" ++ path ++ "//"
  , base_url ++ "/./" ++ path ++ "/./"
  , base_url ++ "///" ++ path ++ "///"
  , base_url ++ "/" ++ path ++ "..;/"
  , base_url ++ "/" ++ path ++ ";/"
  , base_url ++ path ++ "\\*"
  , base_url ++ "/" ++ path ++ "/*"
  , base_url ++ "/" ++ path ++ "%20"
  , base_url ++ "/" ++ path ++ "%09"
  , base_url ++ "/" ++ path.toUpper
  , base_url ++ "/" ++ path ++ "?"
  , base_url ++ "/" ++ path ++ "/?anything"
  , base_url ++ "/" ++ path ++ ".html"
  , base_url ++ "/" ++ path ++ ".php"
  , base_url ++ "/" ++ path ++ ".json" ]

/-- `Configuration.filter_status` (src/utility/configuration.py): keep the
records containing `---> <code>,` for one of the requested codes. -/
def filter_status (results : List String) (codes : List Nat) : List String :=
  if results = [] then []
  else
    let cs := codes.map toString
    results.filter (fun r => cs.any (fun c => containsSub r ("---> " ++ c ++ ",")))

/-- The chunking performed by `range(0, len(path_file), BATCH_SIZE)` plus
slicing in `_process_paths_for_base_url`; `B = 0` would raise in Python, so
it yields no chunks here. -/
def chunksAux (B : Nat) : Nat → List α → List (List α)
  | 0, _ => []
  | _, [] => []
  | fuel + 1, l => l.take B :: chunksAux B fuel (l.drop B)

def chunks (B : Nat) (l : List α) : List (List α) :=
  if B = 0 then [] else chunksAux B l.length l

/-- `_is_per_url_timeout` (src/bypass_403.py:52): reads the clock only when
both the per-URL limit and the per-URL start time are present; never writes
any state beyond the clock cursor. -/
def is_per_url_timeout (rc : RuntimeCfg) (env : Env) (st : St) : Bool × St :=
  match rc.per_url_time_limit, st.current_url_start_time with
  | some lim, some start =>
    let p := readClock env st
    (p.1 - start > lim, p.2)
  | _, _ => (false, st)

/-- `_log_timeout_once` (src/bypass_403.py:662): under `log_lock`, log the
message, mark it logged and set the stop event — but only for the first
caller. -/
def log_timeout_once (msg : String) (st : St) : St :=
  if st.time_hit_logged then st
  else
    let st := logInfo msg st
    { st with time_hit_logged := true, stop_event := true }

/-- The message `_is_timeout_global` hands to `_log_timeout_once`
(number formatting abstracted by `toString`). -/
def globalTimeoutMsg (elapsed lim : ℚ) : String :=
  "Global time limit exceeded: " ++ toString elapsed ++ "min > "
    ++ toString lim ++ "min"

/-- `_is_timeout_global` (src/bypass_403.py:69): short-circuits on the stop
event, otherwise reads the clock and, when the limit is configured and
exceeded, logs once and trips the stop event. -/
def is_timeout_global (rc : RuntimeCfg) (env : Env) (st : St) : Bool × St :=
  if st.stop_event then (true, st)
  else
    let p := readClock env st
    match rc.time, p.2.scan_start_time with
    | some lim, some start =>
      let elapsed := (p.1 - start) / 60
      if elapsed > lim then
        (true, log_timeout_once (globalTimeoutMsg elapsed lim) p.2)
      else (false, p.2)
    | _, _ => (false, p.2)

/-- `_is_timeout` (src/bypass_403.py:638): global check `or` per-URL check,
with Python's short-circuiting. -/
def is_timeout (rc : RuntimeCfg) (env : Env) (st : St) : Bool × St :=
  let g := is_timeout_global rc env st
  if g.1 then (true, g.2) else is_per_url_timeout rc env g.2

/-- `_coordinate_delay` (src/bypass_403.py:93), inside the fuzzer state.
Both `time.time()` calls (on entry, and again after the sleep) read the
clock stream; the sleep itself is realized by the environment making the
second reading sufficiently late. -/
def coordinate_delay (rc : RuntimeCfg) (env : Env) (st : St) : St :=
  match rc.delay with
  | none => st
  | some d =>
    if d ≤ 0 then st
    else
      let p := readClock env st
      if p.2.last_request_time > 0 then
        let elapsed := p.1 - p.2.last_request_time
        if elapsed < d then
          let q := readClock env p.2
          { q.2 with last_request_time := q.1 }
        else { p.2 with last_request_time := p.1 }
      else { p.2 with last_request_time := p.1 }

/-- `_coordinate_delay` as a pure step on the shared `_last_request_time`
slot, with the two `time.time()` readings (`now` on entry, `t2` after the
sleep) passed explicitly.  The whole body runs under
`_request_timing_lock`, so any concurrent call sequence is a sequential
composition of these steps. -/
def coordinate_delay_step (delay : Option ℚ) (last now t2 : ℚ) : ℚ :=
  match delay with
  | none => last
  | some d =>
    if d ≤ 0 then last
    else
      if last > 0 then
        if now - last < d then t2 else now
      else now

/-- The sequence of values recorded into `_last_request_time` by a sequence
of `_coordinate_delay(d)` calls, each call supplying its entry reading and
its post-sleep reading. -/
def rl_run (d : ℚ) : List (ℚ × ℚ) → ℚ → List ℚ
  | [], _ => []
  | (now, t2) :: rest, last =>
    let l2 := coordinate_delay_step (some d) last now t2
    l2 :: rl_run d rest l2

/-- Well-timed call sequence: each entry reading is a nonnegative clock
value, and the post-sleep reading honors `time.sleep(delay - elapsed)`,
i.e. is at least `now + (d - (now - last))` for the state `last` the call
observes. -/
def rl_valid (d : ℚ) : List (ℚ × ℚ) → ℚ → Prop
  | [], _ => True
  | (now, t2) :: rest, last =>
    0 ≤ now ∧ now + (d - (now - last)) ≤ t2 ∧
      rl_valid d rest (coordinate_delay_step (some d) last now t2)

/-- `_make_single_request` (src/bypass_403.py:366): inject a User-Agent when
absent, rate-limit in sequential mode, issue the request (one oracle slot),
and convert every outcome — response or exception — into a formatted record. -/
def make_single_request (cfg : StaticCfg) (rc : RuntimeCfg) (env : Env)
    (url method : String) (headers : Header) (is_threaded : Bool) (st : St) :
    String × St :=
  let headers :=
    if headers.any (fun kv => kv.1 = "User-Agent") then headers
    else headers ++ [("User-Agent",
      (env.user_agents.getD (env.uaPick st.req) ""))]
  let st1 := if is_threaded then st else coordinate_delay rc env st
  let outcome := env.response st1.req
  let st := { st1 with req := st1.req + 1 }
  match outcome with
  | HttpOutcome.response code len =>
    let result := url ++ " ---> " ++ toString code ++ ", " ++ method ++ ", "
      ++ reprHeader headers ++ ", " ++ toString len ++ " bytes"
    let shouldLog :=
      match rc.filter_status_code with
      | some (c :: cs) => (c :: cs).contains code
      | _ => true
    let st :=
      if shouldLog then
        let st := { st with logged_count := st.logged_count + 1 }
        logInfo (cfg.color_status_code code result) st
      else st
    (result, st)
  | HttpOutcome.timeout =>
    let st := logWarn ("Timeout (" ++ toString TIMEOUT ++ "s) for " ++ method
      ++ " " ++ url) st
    (url ++ " ---> TIMEOUT, " ++ method ++ ", \x7b\x7d, 0 bytes", st)
  | HttpOutcome.connError emsg =>
    let st := logWarn ("Connection failed for " ++ method ++ " " ++ url ++ ": "
      ++ pyTake100 emsg) st
    (url ++ " ---> CONNECTION_ERROR, " ++ method ++ ", \x7b\x7d, 0 bytes", st)
  | HttpOutcome.reqError emsg =>
    let st := logErr ("Request error for " ++ method ++ " " ++ url ++ ": "
      ++ pyTake100 emsg) st
    (url ++ " ---> ERROR, " ++ method ++ ", \x7b\x7d, 0 bytes", st)

/-- `_make_threaded_request` (src/bypass_403.py:324): the worker body run by
the pool (its semaphore only bounds concurrency).  Returns the empty string
when the timeout predicate already trips. -/
def make_threaded_request (cfg : StaticCfg) (rc : RuntimeCfg) (env : Env)
    (url method : String) (headers : Header) (st : St) : String × St :=
  let t := is_timeout rc env st
  if t.1 then ("", t.2)
  else
    make_single_request cfg rc env url method headers true
      (coordinate_delay rc env t.2)

/-- `_log_progress` (src/bypass_403.py:678): interval progress logging,
no clock access. -/
def log_progress (cur total : Nat) (operation : String) (st : St) : St :=
  if total > 10 then
    let interval := max 1 (total / 10)
    if cur % interval = 0 ∨ cur = total then
      logInfo (operation ++ " progress: " ++ toString cur ++ "/"
        ++ toString total ++ " (" ++ toString (((cur : ℚ) / total) * 100)
        ++ "%)") st
    else st
  else st

/-- `_log_progress_with_time` (src/bypass_403.py:608): reads the clock when
a progress line is due. -/
def log_progress_with_time (cfg : StaticCfg) (env : Env) (cur total : Nat)
    (operation : String) (start_time : ℚ) (st : St) : St :=
  if total > 10 then
    let interval := max 1 (total / 10)
    if cur % interval = 0 ∨ cur = total then
      let (now, st) := readClock env st
      let elapsed := now - start_time
      if cur > 0 then
        let estimated := elapsed * ((total : ℚ) / cur)
        let remaining := estimated - elapsed
        logInfo (operation ++ " progress: " ++ toString cur ++ "/"
          ++ toString total ++ " (" ++ toString (((cur : ℚ) / total) * 100)
          ++ "%) - Est. " ++ cfg.format_time_remaining remaining
          ++ " remaining") st
      else st
    else st
  else st

/-- `_log_global_timeout_remaining` (src/bypass_403.py:648); note the
Python-truthiness guards (a limit of `0` is falsy). -/
def log_global_timeout_remaining (cfg : StaticCfg) (rc : RuntimeCfg)
    (env : Env) (st : St) : St :=
  if pyTruthyQ rc.time ∧ pyTruthyQ st.scan_start_time then
    let (now, st) := readClock env st
    let elapsed_minutes := (now - st.scan_start_time.getD 0) / 60
    let remaining_minutes := rc.time.getD 0 - elapsed_minutes
    if remaining_minutes > 0 then
      logInfo ("Global timeout: "
        ++ cfg.format_time_remaining (remaining_minutes * 60)
        ++ " remaining") st
    else st
  else st

/-- Accumulator of `_run_sequential`'s loop nest: the growing result list,
the request counter, the fuzzer state, and whether the `return` on hitting
`MAX_RESULT` has been taken. -/
structure SeqLoop where
  acc : List String
  cur : Nat
  st : St
  done : Bool

/-- The body of `_run_sequential`'s innermost iteration: count the request,
log progress, periodically log the remaining global budget, issue the
request, collect a non-empty result, and flag the `return` taken when the
result cap is reached. -/
def seqReqStep (cfg : StaticCfg) (rc : RuntimeCfg) (env : Env)
    (url method : String) (total : Nat) (start_time : ℚ) (h : Header)
    (s : SeqLoop) : SeqLoop :=
  let cur := s.cur + 1
  let st := log_progress_with_time cfg env cur total "Request processing"
    start_time s.st
  let st := if cur % PROGRESS_LOG_INTERVAL = 0 then
    log_global_timeout_remaining cfg rc env st else st
  let m := make_single_request cfg rc env url method h false st
  let acc := if m.1 ≠ "" then s.acc ++ [m.1] else s.acc
  if acc.length ≥ MAX_RESULT then
    { acc := acc, cur := cur
      st := logWarn ("Result limit (" ++ toString MAX_RESULT ++ ") exceeded")
        m.2
      done := true }
  else { acc := acc, cur := cur, st := m.2, done := s.done }

/-- The innermost (`for header in ...`) loop of `_run_sequential`
(src/bypass_403.py:297): timeout check breaks the loop; the result-cap check
returns from the whole function (signalled by `done`). -/
def seqHeaderLoop (cfg : StaticCfg) (rc : RuntimeCfg) (env : Env)
    (url method : String) (total : Nat) (start_time : ℚ) :
    List Header → SeqLoop → SeqLoop
  | [], s => s
  | h :: rest, s =>
    let t := is_timeout rc env s.st
    if t.1 then { s with st := t.2 }
    else
      let s1 := seqReqStep cfg rc env url method total start_time h
        { s with st := t.2 }
      if s1.done then s1
      else seqHeaderLoop cfg rc env url method total start_time rest s1

/-- The middle (`for method in ...`) loop of `_run_sequential`. -/
def seqMethodLoop (cfg : StaticCfg) (rc : RuntimeCfg) (env : Env)
    (url : String) (total : Nat) (start_time : ℚ) :
    List String → SeqLoop → SeqLoop
  | [], s => s
  | m :: rest, s =>
    let t := is_timeout rc env s.st
    if t.1 then { s with st := t.2 }
    else
      let s1 := seqHeaderLoop cfg rc env url m total start_time
        (get_headers cfg rc) { s with st := t.2 }
      if s1.done then s1
      else seqMethodLoop cfg rc env url total start_time rest s1

/-- The outer (`for url in ...`) loop of `_run_sequential`. -/
def seqUrlLoop (cfg : StaticCfg) (rc : RuntimeCfg) (env : Env)
    (total : Nat) (start_time : ℚ) : List String → SeqLoop → SeqLoop
  | [], s => s
  | url :: rest, s =>
    let t := is_timeout rc env s.st
    if t.1 then { s with st := t.2 }
    else
      let s1 := seqMethodLoop cfg rc env url total start_time
        (get_methods cfg rc) { s with st := t.2 }
      if s1.done then s1
      else seqUrlLoop cfg rc env total start_time rest s1

/-- `_run_sequential` (src/bypass_403.py:281). -/
def run_sequential (cfg : StaticCfg) (rc : RuntimeCfg) (env : Env)
    (urls : List String) (st : St) : List String × St :=
  let total := urls.length * (get_methods cfg rc).length
    * (get_headers cfg rc).length
  let p := readClock env st
  let s := seqUrlLoop cfg rc env total p.1 urls
    { acc := [], cur := 0, st := p.2, done := false }
  (s.acc, s.st)

/-- `_run_fuzz_threading` (src/bypass_403.py:190).  With `num_threads ≤ 1`
it delegates to `_run_sequential`.  The pool branch is nondeterministic and
is modelled separately by `collect_threaded_result`; here it is a stub and
whole-run theorems that depend on dispatch assume `num_threads ≤ 1`. -/
def run_fuzz_threading (cfg : StaticCfg) (rc : RuntimeCfg) (env : Env)
    (urls : List String) (st : St) : List String × St :=
  let st := logInfo ("Starting _run_fuzz_threading with "
    ++ toString urls.length ++ " URLs") st
  if rc.num_threads ≤ 1 then run_sequential cfg rc env urls st
  else ([], st)

/-- One completed future observed by `_collect_threaded_result`
(the `as_completed` order is the order of this list): a produced result
string, a `future.result(timeout=1)` timeout, or a raised exception, the
latter two with the (method, url) of the corresponding request for the log
line. -/
inductive FutureEvent where
  | ok (r : String)
  | futTimeout (method url : String)
  | exn (method url emsg : String)
deriving DecidableEq, Repr

/-- The body of `_collect_threaded_result`'s loop (src/bypass_403.py:244)
over the completion-ordered events; the returned `Bool` records whether the
remaining futures were cancelled (timeout break or result-cap break). -/
def collect_aux (rc : RuntimeCfg) (env : Env) (total : Nat) :
    List FutureEvent → Nat → List String → St → List String × Bool × St
  | [], _, acc, st => (acc, false, st)
  | e :: rest, i, acc, st =>
    let t := is_timeout rc env (log_progress i total "Request processing" st)
    if t.1 then (acc, true, t.2)
    else
      match e with
      | FutureEvent.ok r =>
        if r ≠ "" ∧ r.trim ≠ "" then
          let acc := acc ++ [r]
          if acc.length ≥ MAX_RESULT then
            (acc, true, logWarn ("Result limit (" ++ toString MAX_RESULT
              ++ ") exceeded") t.2)
          else collect_aux rc env total rest (i + 1) acc t.2
        else collect_aux rc env total rest (i + 1) acc t.2
      | FutureEvent.futTimeout m u =>
        collect_aux rc env total rest (i + 1) acc
          (logWarn ("Future timeout for " ++ m ++ " " ++ u) t.2)
      | FutureEvent.exn m u emsg =>
        collect_aux rc env total rest (i + 1) acc
          (logErr ("Future error for " ++ m ++ " " ++ u ++ ": " ++ emsg) t.2)

/-- `_collect_threaded_result` (src/bypass_403.py:231) as a fold over the
completion-ordered event list. -/
def collect_threaded_result (rc : RuntimeCfg) (env : Env)
    (events : List FutureEvent) (st : St) : List String × Bool × St :=
  collect_aux rc env events.length events 1 [] st

/-- The batch (`for i in range(0, len(path_file), BATCH_SIZE)`) loop of
`_process_paths_for_base_url` (src/bypass_403.py:169), over the precomputed
chunks. -/
def process_batches (cfg : StaticCfg) (rc : RuntimeCfg) (env : Env) :
    List (List String) → List String → St → List String × St
  | [], acc, st => (acc, st)
  | batch :: rest, acc, st =>
    let g := is_timeout_global rc env st
    if g.1 then (acc, g.2)
    else
      let p := is_per_url_timeout rc env g.2
      if p.1 then (acc, logInfo "Per-URL time limit exceeded" p.2)
      else
        let batch_urls := batch.flatMap (generate_url_variations p.2.base_url)
        if batch_urls.isEmpty then process_batches cfg rc env rest acc p.2
        else
          let rr := run_fuzz_threading cfg rc env batch_urls p.2
          process_batches cfg rc env rest (acc ++ rr.1) rr.2

/-- `_process_paths_for_base_url` (src/bypass_403.py:158). -/
def process_paths_for_base_url (cfg : StaticCfg) (rc : RuntimeCfg) (env : Env)
    (st : St) : List String × St :=
  process_batches cfg rc env (chunks rc.path_batch_size cfg.path_file) [] st

/-- The body of `_process_url_list`'s loop (src/bypass_403.py:129): `total`
is `len(url_file)`, `idx` the 1-based enumeration index.  The
`finally:`-guarded restore of `config.base_url` is the last assignment of
each iteration. -/
def url_loop (cfg : StaticCfg) (rc : RuntimeCfg) (env : Env) (total : Nat) :
    Nat → List String → List String → St → List String × St
  | _, [], acc, st => (acc, st)
  | idx, target :: rest, acc, st =>
    let g := is_timeout_global rc env
      (logInfo ("Starting URL " ++ toString idx ++ "/" ++ toString total
        ++ ": " ++ target) st)
    if g.1 then
      (acc, logInfo ("Global timeout reached, stopping at URL "
        ++ toString idx) g.2)
    else
      let p := readClock env g.2
      let st2 := { p.2 with current_url_start_time := some p.1 }
      let original := st2.base_url
      let st3 := { st2 with base_url := pyRstripSlash target }
      let rr :=
        if cfg.path_file ≠ [] then process_paths_for_base_url cfg rc env st3
        else run_fuzz_threading cfg rc env [st3.base_url] st3
      let st4 := logInfo ("Finished URL " ++ toString idx ++ ": "
        ++ toString rr.1.length ++ " results") rr.2
      url_loop cfg rc env total (idx + 1) rest (acc ++ rr.1)
        { st4 with base_url := original }

/-- `_process_url_list` (src/bypass_403.py:119). -/
def process_url_list (cfg : StaticCfg) (rc : RuntimeCfg) (env : Env)
    (st : St) : List String × St :=
  url_loop cfg rc env cfg.url_file.length 1 cfg.url_file [] st

/-- The try/finally target scope of one `_process_url_list` iteration,
generalized over a body that may raise (the `except`-free `try` block with
the `finally: self.config.base_url = original_base_url`): swap in the
stripped target, run the body, restore the prior base URL on both the
normal and the raising path. -/
def target_scope (env : Env) (target : String)
    (body : St → Except String (List String) × St) (st : St) :
    Except String (List String) × St :=
  let p := readClock env st
  let st2 := { p.2 with current_url_start_time := some p.1 }
  let original := st2.base_url
  let r := body { st2 with base_url := pyRstripSlash target }
  (r.1, { r.2 with base_url := original })

/-- The `"=" * 50` separator line of `_display_configuration`. -/
def sepLine : String := String.mk (List.replicate 50 '=')

/-- A conditionally emitted log line. -/
def optLine (c : Bool) (s : String) : List String := if c then [s] else []

/-- The lines `_display_configuration` (src/bypass_403.py:509) emits, in
order; the function reads the (mutable) base URL and the two configs and
only logs, so it is phrased as a pure line list appended to the log by
`display_configuration`. -/
def displayLines (cfg : StaticCfg) (rc : RuntimeCfg) (base_url : String) :
    List String :=
  let methods := get_methods cfg rc
  let headers := get_headers cfg rc
  [sepLine, "FUZZER CONFIGURATION", sepLine]
  ++ optLine (base_url ≠ "") ("Target URL: " ++ base_url)
  ++ optLine (cfg.url_file ≠ [])
      ("URL file: " ++ toString cfg.url_file.length ++ " URLs loaded")
  ++ (if cfg.path_file ≠ [] then
      [ "Path file: " ++ toString cfg.path_file.length ++ " paths loaded"
      , "Path batch size: " ++ toString rc.path_batch_size ]
    else [])
  ++ (match rc.method with
    | some (_ :: _) =>
      ["Methods (runtime): " ++ String.intercalate ", " methods]
    | _ =>
      match cfg.method_file with
      | _ :: _ =>
        if rc.max_methods.getD 0 ≠ 0
            ∧ cfg.method_file.length > rc.max_methods.getD 0 then
          ["Methods (file): " ++ toString methods.length ++ "/"
            ++ toString cfg.method_file.length
            ++ " methods loaded (limited by max_methods)"]
        else
          ["Methods (file): " ++ toString methods.length
            ++ " methods loaded"]
      | [] => ["Methods (default): " ++ String.intercalate ", " methods])
  ++ (match cfg.header with
    | some (_ :: _) =>
      ["Headers (single): " ++ toString headers.length ++ " header(s)"]
    | _ =>
      match cfg.header_file with
      | _ :: _ =>
        if rc.max_headers.getD 0 ≠ 0
            ∧ cfg.header_file.length > rc.max_headers.getD 0 then
          ["Headers (file): " ++ toString headers.length ++ "/"
            ++ toString cfg.header_file.length
            ++ " headers loaded (limited by max_headers)"]
        else
          ["Headers (file): " ++ toString headers.length
            ++ " headers loaded"]
      | [] => ["Headers: None (empty)"])
  ++ (if rc.num_threads > 1 then
      [ "Threading: " ++ toString rc.num_threads ++ " concurrent workers"
      , "Estimated speedup: " ++ toString rc.num_threads ++ "x" ]
    else ["Threading: Sequential mode (1 worker)"])
  ++ [match rc.delay with
    | some d => "Request delay: " ++ toString d ++ "s"
    | none => "Request delay: None"]
  ++ optLine (pyTruthyQ rc.time)
      ("Global time limit: " ++ toString (rc.time.getD 0) ++ " minutes")
  ++ optLine (pyTruthyQ rc.per_url_time_limit)
      ("Per-URL time limit: " ++ toString (rc.per_url_time_limit.getD 0)
        ++ " seconds")
  ++ [ "SSL verification: False"
     , "Request timeout: " ++ toString TIMEOUT ++ "s"
     , "Max results: " ++ toString MAX_RESULT ]
  ++ (match rc.filter_status_code with
    | some (c :: cs) => ["Status code filter: " ++ toString (c :: cs)]
    | _ => [])
  ++ optLine (pyTruthyStr rc.output_file)
      ("Output file: " ++ rc.output_file.getD "")
  ++ [sepLine]

/-- `_display_configuration` (src/bypass_403.py:509): pure logging — no
clock reads, no oracle access, no state changes beyond the log. -/
def display_configuration (cfg : StaticCfg) (rc : RuntimeCfg) (st : St) : St :=
  { st with log := st.log ++ (displayLines cfg rc st.base_url).map LogMsg.info }

/-- The filtered list `_finalize_results` computes when a status filter is
configured (Python truthiness: an empty filter list leaves the results
unfiltered). -/
def finalFiltered (rc : RuntimeCfg) (results : List String) : List String :=
  match rc.filter_status_code with
  | some (c :: cs) => filter_status results (c :: cs)
  | _ => results

/-- `_finalize_results` (src/bypass_403.py:706): log a summary, filter via
the collaborator predicate, write the filtered records to the output file
itself when one is configured, and return the original (unfiltered) list. -/
def finalize_results (_cfg : StaticCfg) (rc : RuntimeCfg)
    (results : List String) (st : St) : List String × St :=
  let st := logInfo ("Total results before filtering: "
    ++ toString results.length) st
  let filtered := finalFiltered rc results
  let st :=
    match rc.filter_status_code with
    | some (c :: cs) =>
      logInfo ("Results after filtering by status " ++ toString (c :: cs)
        ++ ": " ++ toString filtered.length) st
    | _ => st
  let st :=
    if pyTruthyStr rc.output_file then
      if filtered ≠ [] then
        let st := { st with
          files := st.files ++ [(rc.output_file.getD "", filtered)] }
        logInfo ("Written " ++ toString filtered.length ++ " results to "
          ++ rc.output_file.getD "") st
      else logInfo "No results matched filter criteria - no file written" st
    else st
  let st :=
    match rc.filter_status_code with
    | some (c :: cs) =>
      if st.logged_count > 0 then
        logInfo ("Logged during execution: " ++ toString st.logged_count
          ++ " results matching " ++ toString (c :: cs)) st
      else st
    | _ => st
  (results, st)

/-- `run` (src/bypass_403.py:758): the whole-run entry point. -/
def fuzzer_run (cfg : StaticCfg) (rc : RuntimeCfg) (env : Env) (st : St) :
    List String × St :=
  let p := readClock env { st with logged_count := 0 }
  let st1 := display_configuration cfg rc
    { p.2 with scan_start_time := some p.1 }
  let rr :=
    if cfg.url_file ≠ [] then process_url_list cfg rc env st1
    else if st1.base_url ≠ "" ∧ cfg.path_file ≠ [] then
      process_paths_for_base_url cfg rc env st1
    else ([], st1)
  finalize_results cfg rc rr.1 rr.2

/-! ### Concrete instances used by scenario theorems, witnesses and
counterexamples -/

/-- The spec's scenario configuration: base URL `http://example.com`,
paths `["admin"]`, single method `GET`, default headers, concurrency 1. -/
def scnCfg : StaticCfg :=
  { base_url := "http://example.com"
    path_file := ["admin"]
    url_file := []
    method_file := []
    header_file := []
    header := none
    format_time_remaining := fun _ => "t"
    color_status_code := fun _ r => r }

def scnRc : RuntimeCfg :=
  { max_headers := none
    max_methods := none
    time := none
    delay := none
    num_threads := 1
    output_file := none
    filter_status_code := none
    method := some ["GET"]
    path_batch_size := 10
    per_url_time_limit := none }

/-- A deterministic environment: constant clock, every request times out. -/
def scnEnv : Env :=
  { clock := fun _ => 0
    response := fun _ => HttpOutcome.timeout
    uaPick := fun _ => 0
    user_agents := ["UA"] }

/-! ### C2: variation generator -/

/-- C2: the variation generator is a pure function of (base URL, path) —
its embedding has no state parameter at all, so it is deterministic and
side-effect-free by construction — and emits exactly 18 variants per path;
and the spec's scenario (base `http://example.com`, paths `["admin"]`,
methods `["GET"]`, headers `[{}]`, concurrency 1) produces exactly 18 tasks,
each yielding one result record. -/
theorem variation_catalog_fixed :
    (∀ base path, (generate_url_variations base path).length = 18) ∧
    (fuzzer_run scnCfg scnRc scnEnv (mkInitSt scnCfg)).1.length = 18 := by
  constructor
  · intro base path
    rfl
  · decide

/-! ### C3: method/header list resolution -/

/-- A runtime configuration with no explicit method list and a method cap
of 2, used to refute the claim that the cap truncates the default. -/
def cexRc3 : RuntimeCfg := { scnRc with method := none, max_methods := some 2 }

/-- C3 counterexample: with no explicit methods, no method file, and
`max_methods = 2`, `_get_methods` returns the built-in default of 4 entries
— the claim that the cap also truncates the built-in default is false. -/
theorem methods_default_uncapped_cex :
    cexRc3.method = none ∧
    scnCfg.method_file = [] ∧
    cexRc3.max_methods = some 2 ∧
    get_methods scnCfg cexRc3 = ["GET", "POST", "PATCH", "HEAD"] ∧
    ¬ (get_methods scnCfg cexRc3).length ≤ 2 := by
  decide

/-- A list capped at `k` has length at most `k` (both truncation branches). -/
lemma capList_some_length_le (k : Nat) (l : List α) :
    (capList (some k) l).length ≤ k := by
  unfold capList
  by_cases h : l.length > k
  · simp [h]
  · simp [h]
    omega

/-- C3, amended: precedence is explicit nonempty method list > nonempty
method file > built-in default (and likewise for headers); the
`max_methods` cap truncates the explicit and file-provided method lists,
but the built-in default method list is returned without truncation, while
`max_headers` truncates all three header sources, the built-in default
single empty mapping included. -/
theorem method_header_resolution (cfg : StaticCfg) (rc : RuntimeCfg) :
    (∀ m ms k, rc.method = some (m :: ms) → rc.max_methods = some k →
      (get_methods cfg rc).length ≤ k) ∧
    (∀ m ms mf, rc.method = some (m :: ms) →
      get_methods cfg rc = get_methods { cfg with method_file := mf } rc) ∧
    ((rc.method = none ∨ rc.method = some []) → ∀ m ms k,
      cfg.method_file = m :: ms → rc.max_methods = some k →
      (get_methods cfg rc).length ≤ k) ∧
    ((rc.method = none ∨ rc.method = some []) → cfg.method_file = [] →
      get_methods cfg rc = ["GET", "POST", "PATCH", "HEAD"]) ∧
    (∀ k, rc.max_headers = some k → (get_headers cfg rc).length ≤ k) ∧
    (∀ kv rest hf, cfg.header = some (kv :: rest) →
      get_headers cfg rc = get_headers { cfg with header_file := hf } rc) ∧
    ((cfg.header = none ∨ cfg.header = some []) → cfg.header_file = [] →
      get_headers cfg rc = capList rc.max_headers [[]]) := by
  refine ⟨?_, ?_, ?_, ?_, ?_, ?_, ?_⟩
  · intro m ms k hm hk
    simp only [get_methods, hm, hk]
    exact capList_some_length_le k _
  · intro m ms mf hm
    simp [get_methods, hm]
  · intro hm m ms k hmf hk
    rcases hm with hm | hm <;>
    · simp only [get_methods, hm, hmf, hk]
      exact capList_some_length_le k _
  · intro hm hmf
    rcases hm with hm | hm <;> simp [get_methods, hm, hmf]
  · intro k hk
    unfold get_headers
    rw [hk]
    exact capList_some_length_le k _
  · intro kv rest hf hh
    simp [get_headers, hh]
  · intro hh hhf
    rcases hh with hh | hh <;> simp [get_headers, hh, hhf]

/-- Witness for C3's amended theorem: an explicit three-method list under a
cap of 2 resolves to at most 2 methods. -/
def rcW3 : RuntimeCfg :=
  { scnRc with method := some ["get", "post", "put"], max_methods := some 2 }

theorem method_header_resolution_witness :
    rcW3.method = some ["get", "post", "put"] ∧ rcW3.max_methods = some 2 ∧
    (get_methods scnCfg rcW3).length ≤ 2 :=
  ⟨rfl, rfl, (method_header_resolution scnCfg rcW3).1 "get" ["post", "put"] 2
    rfl rfl⟩

/-! ### State frame lemmas: which fields each operation can change -/

lemma coordinate_delay_frame (rc : RuntimeCfg) (env : Env) (st : St) :
    ∃ a b, coordinate_delay rc env st =
      { st with last_request_time := a, clk := b } := by
  unfold coordinate_delay readClock
  rcases rc.delay with _ | d
  · exact ⟨st.last_request_time, st.clk, rfl⟩
  · dsimp only
    split_ifs <;> exact ⟨_, _, rfl⟩

lemma log_timeout_once_frame (msg : String) (st : St) :
    ∃ a b c, log_timeout_once msg st =
      { st with log := a, time_hit_logged := b, stop_event := c } := by
  unfold log_timeout_once logInfo
  split_ifs <;> exact ⟨_, _, _, rfl⟩

lemma is_timeout_global_frame (rc : RuntimeCfg) (env : Env) (st : St) :
    ∃ a b c d, (is_timeout_global rc env st).2 =
      { st with log := a, time_hit_logged := b, stop_event := c, clk := d } := by
  unfold is_timeout_global readClock log_timeout_once logInfo
  dsimp only
  split_ifs <;> first
    | exact ⟨_, _, _, _, rfl⟩
    | (split <;> first
        | exact ⟨_, _, _, _, rfl⟩
        | (split_ifs <;> exact ⟨_, _, _, _, rfl⟩))

lemma is_per_url_timeout_frame (rc : RuntimeCfg) (env : Env) (st : St) :
    ∃ d, (is_per_url_timeout rc env st).2 = { st with clk := d } := by
  unfold is_per_url_timeout readClock
  split
  · exact ⟨_, rfl⟩
  · exact ⟨st.clk, rfl⟩

lemma is_timeout_frame (rc : RuntimeCfg) (env : Env) (st : St) :
    ∃ a b c d, (is_timeout rc env st).2 =
      { st with log := a, time_hit_logged := b, stop_event := c, clk := d } := by
  unfold is_timeout
  obtain ⟨a, b, c, d, hg⟩ := is_timeout_global_frame rc env st
  rcases hpair : is_timeout_global rc env st with ⟨g, st2⟩
  rw [hpair] at hg
  dsimp only at hg ⊢
  subst hg
  split_ifs
  · exact ⟨a, b, c, d, rfl⟩
  · obtain ⟨e, hp⟩ := is_per_url_timeout_frame rc env
      { st with log := a, time_hit_logged := b, stop_event := c, clk := d }
    rw [hp]
    exact ⟨a, b, c, e, rfl⟩

lemma make_single_request_frame (cfg : StaticCfg) (rc : RuntimeCfg) (env : Env)
    (url method : String) (headers : Header) (thr : Bool) (st : St) :
    ∃ a b c d e,
      (make_single_request cfg rc env url method headers thr st).2 =
        { st with last_request_time := a, clk := b, req := c, logged_count := d, log := e } := by
  obtain ⟨a, b, hc⟩ := coordinate_delay_frame rc env st
  unfold make_single_request logInfo logWarn logErr
  cases thr
  case true =>
    simp only [reduceIte]
    rcases env.response st.req with ⟨code, len⟩ | - | ⟨e⟩ | ⟨e⟩ <;> dsimp only <;>
      first
        | (split_ifs <;> exact ⟨_, _, _, _, _, rfl⟩)
        | exact ⟨_, _, _, _, _, rfl⟩
  case false =>
    simp only [Bool.false_eq_true, reduceIte, hc]
    rcases env.response st.req with ⟨code, len⟩ | - | ⟨e⟩ | ⟨e⟩ <;> dsimp only <;>
      first
        | (split_ifs <;> exact ⟨_, _, _, _, _, rfl⟩)
        | exact ⟨_, _, _, _, _, rfl⟩

/-- The fields the dispatch path (everything called from
`_run_fuzz_threading` and `_process_paths_for_base_url`) never writes:
the scan start time, the per-URL start time, the current base URL, and
the set of written files. -/
def DFrame (st st' : St) : Prop :=
  st'.scan_start_time = st.scan_start_time ∧
  st'.current_url_start_time = st.current_url_start_time ∧
  st'.base_url = st.base_url ∧
  st'.files = st.files

lemma DFrame.refl (st : St) : DFrame st st := ⟨rfl, rfl, rfl, rfl⟩

lemma DFrame.trans {a b c : St} (h1 : DFrame a b) (h2 : DFrame b c) :
    DFrame a c := by
  obtain ⟨x1, x2, x3, x4⟩ := h1
  obtain ⟨y1, y2, y3, y4⟩ := h2
  exact ⟨y1.trans x1, y2.trans x2, y3.trans x3, y4.trans x4⟩

lemma logInfo_dframe (m : String) (st : St) : DFrame st (logInfo m st) :=
  ⟨rfl, rfl, rfl, rfl⟩

lemma logWarn_dframe (m : String) (st : St) : DFrame st (logWarn m st) :=
  ⟨rfl, rfl, rfl, rfl⟩

lemma logErr_dframe (m : String) (st : St) : DFrame st (logErr m st) :=
  ⟨rfl, rfl, rfl, rfl⟩

lemma coordinate_delay_dframe (rc : RuntimeCfg) (env : Env) (st : St) :
    DFrame st (coordinate_delay rc env st) := by
  obtain ⟨a, b, h⟩ := coordinate_delay_frame rc env st
  rw [h]
  exact ⟨rfl, rfl, rfl, rfl⟩

lemma is_timeout_global_dframe (rc : RuntimeCfg) (env : Env) (st : St) :
    DFrame st (is_timeout_global rc env st).2 := by
  obtain ⟨a, b, c, d, h⟩ := is_timeout_global_frame rc env st
  rw [h]
  exact ⟨rfl, rfl, rfl, rfl⟩

lemma is_per_url_timeout_dframe (rc : RuntimeCfg) (env : Env) (st : St) :
    DFrame st (is_per_url_timeout rc env st).2 := by
  obtain ⟨d, h⟩ := is_per_url_timeout_frame rc env st
  rw [h]
  exact ⟨rfl, rfl, rfl, rfl⟩

lemma is_timeout_dframe (rc : RuntimeCfg) (env : Env) (st : St) :
    DFrame st (is_timeout rc env st).2 := by
  obtain ⟨a, b, c, d, h⟩ := is_timeout_frame rc env st
  rw [h]
  exact ⟨rfl, rfl, rfl, rfl⟩

lemma make_single_request_dframe (cfg : StaticCfg) (rc : RuntimeCfg)
    (env : Env) (url method : String) (headers : Header) (thr : Bool)
    (st : St) :
    DFrame st (make_single_request cfg rc env url method headers thr st).2 := by
  obtain ⟨a, b, c, d, e, h⟩ := make_single_request_frame cfg rc env url method
    headers thr st
  rw [h]
  exact ⟨rfl, rfl, rfl, rfl⟩

lemma log_progress_dframe (cur total : Nat) (operation : String) (st : St) :
    DFrame st (log_progress cur total operation st) := by
  unfold log_progress logInfo
  dsimp only
  split_ifs <;> exact ⟨rfl, rfl, rfl, rfl⟩

lemma log_progress_with_time_dframe (cfg : StaticCfg) (env : Env)
    (cur total : Nat) (operation : String) (t0 : ℚ) (st : St) :
    DFrame st (log_progress_with_time cfg env cur total operation t0 st) := by
  unfold log_progress_with_time readClock logInfo
  dsimp only
  split_ifs <;> exact ⟨rfl, rfl, rfl, rfl⟩

lemma log_global_timeout_remaining_dframe (cfg : StaticCfg) (rc : RuntimeCfg)
    (env : Env) (st : St) :
    DFrame st (log_global_timeout_remaining cfg rc env st) := by
  unfold log_global_timeout_remaining readClock logInfo
  dsimp only
  split_ifs <;> exact ⟨rfl, rfl, rfl, rfl⟩


/-- Projection lemmas: the four `DFrame` fields through each primitive. -/
@[simp] lemma readClock_scan (env : Env) (st : St) :
    (readClock env st).2.scan_start_time = st.scan_start_time := rfl

@[simp] lemma readClock_curr (env : Env) (st : St) :
    (readClock env st).2.current_url_start_time
      = st.current_url_start_time := rfl

@[simp] lemma readClock_base (env : Env) (st : St) :
    (readClock env st).2.base_url = st.base_url := rfl

@[simp] lemma readClock_files (env : Env) (st : St) :
    (readClock env st).2.files = st.files := rfl

@[simp] lemma logInfo_scan (m : String) (st : St) :
    (logInfo m st).scan_start_time = st.scan_start_time := rfl

@[simp] lemma logInfo_curr (m : String) (st : St) :
    (logInfo m st).current_url_start_time = st.current_url_start_time := rfl

@[simp] lemma logInfo_base (m : String) (st : St) :
    (logInfo m st).base_url = st.base_url := rfl

@[simp] lemma logInfo_files (m : String) (st : St) :
    (logInfo m st).files = st.files := rfl

@[simp] lemma logWarn_scan (m : String) (st : St) :
    (logWarn m st).scan_start_time = st.scan_start_time := rfl

@[simp] lemma logWarn_curr (m : String) (st : St) :
    (logWarn m st).current_url_start_time = st.current_url_start_time := rfl

@[simp] lemma logWarn_base (m : String) (st : St) :
    (logWarn m st).base_url = st.base_url := rfl

@[simp] lemma logWarn_files (m : String) (st : St) :
    (logWarn m st).files = st.files := rfl

@[simp] lemma logErr_scan (m : String) (st : St) :
    (logErr m st).scan_start_time = st.scan_start_time := rfl

@[simp] lemma logErr_curr (m : String) (st : St) :
    (logErr m st).current_url_start_time = st.current_url_start_time := rfl

@[simp] lemma logErr_base (m : String) (st : St) :
    (logErr m st).base_url = st.base_url := rfl

@[simp] lemma logErr_files (m : String) (st : St) :
    (logErr m st).files = st.files := rfl

@[simp] lemma coordinate_delay_scan (rc : RuntimeCfg) (env : Env) (st : St) :
    (coordinate_delay rc env st).scan_start_time = st.scan_start_time := by
  obtain ⟨a, b, h⟩ := coordinate_delay_frame rc env st
  rw [h]

@[simp] lemma coordinate_delay_curr (rc : RuntimeCfg) (env : Env) (st : St) :
    (coordinate_delay rc env st).current_url_start_time
      = st.current_url_start_time := by
  obtain ⟨a, b, h⟩ := coordinate_delay_frame rc env st
  rw [h]

@[simp] lemma coordinate_delay_base (rc : RuntimeCfg) (env : Env) (st : St) :
    (coordinate_delay rc env st).base_url = st.base_url := by
  obtain ⟨a, b, h⟩ := coordinate_delay_frame rc env st
  rw [h]

@[simp] lemma coordinate_delay_files (rc : RuntimeCfg) (env : Env) (st : St) :
    (coordinate_delay rc env st).files = st.files := by
  obtain ⟨a, b, h⟩ := coordinate_delay_frame rc env st
  rw [h]

@[simp] lemma is_timeout_global_scan (rc : RuntimeCfg) (env : Env) (st : St) :
    (is_timeout_global rc env st).2.scan_start_time = st.scan_start_time := by
  obtain ⟨a, b, c, d, h⟩ := is_timeout_global_frame rc env st
  rw [h]

@[simp] lemma is_timeout_global_curr (rc : RuntimeCfg) (env : Env) (st : St) :
    (is_timeout_global rc env st).2.current_url_start_time
      = st.current_url_start_time := by
  obtain ⟨a, b, c, d, h⟩ := is_timeout_global_frame rc env st
  rw [h]

@[simp] lemma is_timeout_global_base (rc : RuntimeCfg) (env : Env) (st : St) :
    (is_timeout_global rc env st).2.base_url = st.base_url := by
  obtain ⟨a, b, c, d, h⟩ := is_timeout_global_frame rc env st
  rw [h]

@[simp] lemma is_timeout_global_files (rc : RuntimeCfg) (env : Env) (st : St) :
    (is_timeout_global rc env st).2.files = st.files := by
  obtain ⟨a, b, c, d, h⟩ := is_timeout_global_frame rc env st
  rw [h]

@[simp] lemma is_per_url_timeout_scan (rc : RuntimeCfg) (env : Env) (st : St) :
    (is_per_url_timeout rc env st).2.scan_start_time = st.scan_start_time := by
  obtain ⟨d, h⟩ := is_per_url_timeout_frame rc env st
  rw [h]

@[simp] lemma is_per_url_timeout_curr (rc : RuntimeCfg) (env : Env) (st : St) :
    (is_per_url_timeout rc env st).2.current_url_start_time
      = st.current_url_start_time := by
  obtain ⟨d, h⟩ := is_per_url_timeout_frame rc env st
  rw [h]

@[simp] lemma is_per_url_timeout_base (rc : RuntimeCfg) (env : Env) (st : St) :
    (is_per_url_timeout rc env st).2.base_url = st.base_url := by
  obtain ⟨d, h⟩ := is_per_url_timeout_frame rc env st
  rw [h]

@[simp] lemma is_per_url_timeout_files (rc : RuntimeCfg) (env : Env) (st : St) :
    (is_per_url_timeout rc env st).2.files = st.files := by
  obtain ⟨d, h⟩ := is_per_url_timeout_frame rc env st
  rw [h]

@[simp] lemma is_timeout_scan (rc : RuntimeCfg) (env : Env) (st : St) :
    (is_timeout rc env st).2.scan_start_time = st.scan_start_time := by
  obtain ⟨a, b, c, d, h⟩ := is_timeout_frame rc env st
  rw [h]

@[simp] lemma is_timeout_curr (rc : RuntimeCfg) (env : Env) (st : St) :
    (is_timeout rc env st).2.current_url_start_time
      = st.current_url_start_time := by
  obtain ⟨a, b, c, d, h⟩ := is_timeout_frame rc env st
  rw [h]

@[simp] lemma is_timeout_base (rc : RuntimeCfg) (env : Env) (st : St) :
    (is_timeout rc env st).2.base_url = st.base_url := by
  obtain ⟨a, b, c, d, h⟩ := is_timeout_frame rc env st
  rw [h]

@[simp] lemma is_timeout_files (rc : RuntimeCfg) (env : Env) (st : St) :
    (is_timeout rc env st).2.files = st.files := by
  obtain ⟨a, b, c, d, h⟩ := is_timeout_frame rc env st
  rw [h]

@[simp] lemma make_single_request_scan (cfg : StaticCfg) (rc : RuntimeCfg)
    (env : Env) (url method : String) (headers : Header) (thr : Bool)
    (st : St) :
    (make_single_request cfg rc env url method headers thr st).2.scan_start_time
      = st.scan_start_time := by
  obtain ⟨a, b, c, d, e, h⟩ :=
    make_single_request_frame cfg rc env url method headers thr st
  rw [h]

@[simp] lemma make_single_request_curr (cfg : StaticCfg) (rc : RuntimeCfg)
    (env : Env) (url method : String) (headers : Header) (thr : Bool)
    (st : St) :
    (make_single_request cfg rc env url method headers thr
      st).2.current_url_start_time = st.current_url_start_time := by
  obtain ⟨a, b, c, d, e, h⟩ :=
    make_single_request_frame cfg rc env url method headers thr st
  rw [h]

@[simp] lemma make_single_request_base (cfg : StaticCfg) (rc : RuntimeCfg)
    (env : Env) (url method : String) (headers : Header) (thr : Bool)
    (st : St) :
    (make_single_request cfg rc env url method headers thr st).2.base_url
      = st.base_url := by
  obtain ⟨a, b, c, d, e, h⟩ :=
    make_single_request_frame cfg rc env url method headers thr st
  rw [h]

@[simp] lemma make_single_request_files (cfg : StaticCfg) (rc : RuntimeCfg)
    (env : Env) (url method : String) (headers : Header) (thr : Bool)
    (st : St) :
    (make_single_request cfg rc env url method headers thr st).2.files
      = st.files := by
  obtain ⟨a, b, c, d, e, h⟩ :=
    make_single_request_frame cfg rc env url method headers thr st
  rw [h]

@[simp] lemma log_progress_scan (cur total : Nat) (op : String) (st : St) :
    (log_progress cur total op st).scan_start_time = st.scan_start_time := by
  unfold log_progress
  dsimp only
  split_ifs <;> simp

@[simp] lemma log_progress_curr (cur total : Nat) (op : String) (st : St) :
    (log_progress cur total op st).current_url_start_time
      = st.current_url_start_time := by
  unfold log_progress
  dsimp only
  split_ifs <;> simp

@[simp] lemma log_progress_base (cur total : Nat) (op : String) (st : St) :
    (log_progress cur total op st).base_url = st.base_url := by
  unfold log_progress
  dsimp only
  split_ifs <;> simp

@[simp] lemma log_progress_files (cur total : Nat) (op : String) (st : St) :
    (log_progress cur total op st).files = st.files := by
  unfold log_progress
  dsimp only
  split_ifs <;> simp

@[simp] lemma log_progress_with_time_scan (cfg : StaticCfg) (env : Env)
    (cur total : Nat) (op : String) (t0 : ℚ) (st : St) :
    (log_progress_with_time cfg env cur total op t0 st).scan_start_time
      = st.scan_start_time := by
  unfold log_progress_with_time readClock
  dsimp only
  split_ifs <;> simp

@[simp] lemma log_progress_with_time_curr (cfg : StaticCfg) (env : Env)
    (cur total : Nat) (op : String) (t0 : ℚ) (st : St) :
    (log_progress_with_time cfg env cur total op t0
      st).current_url_start_time = st.current_url_start_time := by
  unfold log_progress_with_time readClock
  dsimp only
  split_ifs <;> simp

@[simp] lemma log_progress_with_time_base (cfg : StaticCfg) (env : Env)
    (cur total : Nat) (op : String) (t0 : ℚ) (st : St) :
    (log_progress_with_time cfg env cur total op t0 st).base_url
      = st.base_url := by
  unfold log_progress_with_time readClock
  dsimp only
  split_ifs <;> simp

@[simp] lemma log_progress_with_time_files (cfg : StaticCfg) (env : Env)
    (cur total : Nat) (op : String) (t0 : ℚ) (st : St) :
    (log_progress_with_time cfg env cur total op t0 st).files = st.files := by
  unfold log_progress_with_time readClock
  dsimp only
  split_ifs <;> simp

@[simp] lemma log_global_timeout_remaining_scan (cfg : StaticCfg)
    (rc : RuntimeCfg) (env : Env) (st : St) :
    (log_global_timeout_remaining cfg rc env st).scan_start_time
      = st.scan_start_time := by
  unfold log_global_timeout_remaining readClock
  dsimp only
  split_ifs <;> simp

@[simp] lemma log_global_timeout_remaining_curr (cfg : StaticCfg)
    (rc : RuntimeCfg) (env : Env) (st : St) :
    (log_global_timeout_remaining cfg rc env st).current_url_start_time
      = st.current_url_start_time := by
  unfold log_global_timeout_remaining readClock
  dsimp only
  split_ifs <;> simp

@[simp] lemma log_global_timeout_remaining_base (cfg : StaticCfg)
    (rc : RuntimeCfg) (env : Env) (st : St) :
    (log_global_timeout_remaining cfg rc env st).base_url = st.base_url := by
  unfold log_global_timeout_remaining readClock
  dsimp only
  split_ifs <;> simp

@[simp] lemma log_global_timeout_remaining_files (cfg : StaticCfg)
    (rc : RuntimeCfg) (env : Env) (st : St) :
    (log_global_timeout_remaining cfg rc env st).files = st.files := by
  unfold log_global_timeout_remaining readClock
  dsimp only
  split_ifs <;> simp

@[simp] lemma seqReqStep_scan (cfg : StaticCfg) (rc : RuntimeCfg) (env : Env)
    (url method : String) (total : Nat) (t0 : ℚ) (h : Header) (s : SeqLoop) :
    (seqReqStep cfg rc env url method total t0 h s).st.scan_start_time
      = s.st.scan_start_time := by
  unfold seqReqStep
  dsimp only
  split_ifs <;> simp

@[simp] lemma seqReqStep_curr (cfg : StaticCfg) (rc : RuntimeCfg) (env : Env)
    (url method : String) (total : Nat) (t0 : ℚ) (h : Header) (s : SeqLoop) :
    (seqReqStep cfg rc env url method total t0 h s).st.current_url_start_time
      = s.st.current_url_start_time := by
  unfold seqReqStep
  dsimp only
  split_ifs <;> simp

@[simp] lemma seqReqStep_base (cfg : StaticCfg) (rc : RuntimeCfg) (env : Env)
    (url method : String) (total : Nat) (t0 : ℚ) (h : Header) (s : SeqLoop) :
    (seqReqStep cfg rc env url method total t0 h s).st.base_url
      = s.st.base_url := by
  unfold seqReqStep
  dsimp only
  split_ifs <;> simp

@[simp] lemma seqReqStep_files (cfg : StaticCfg) (rc : RuntimeCfg) (env : Env)
    (url method : String) (total : Nat) (t0 : ℚ) (h : Header) (s : SeqLoop) :
    (seqReqStep cfg rc env url method total t0 h s).st.files
      = s.st.files := by
  unfold seqReqStep
  dsimp only
  split_ifs <;> simp

lemma seqHeaderLoop_dframe (cfg : StaticCfg) (rc : RuntimeCfg) (env : Env)
    (url method : String) (total : Nat) (t0 : ℚ) (hs : List Header)
    (s : SeqLoop) :
    DFrame s.st (seqHeaderLoop cfg rc env url method total t0 hs s).st := by
  induction hs generalizing s with
  | nil => exact DFrame.refl _
  | cons h rest ih =>
    unfold seqHeaderLoop
    dsimp only
    split_ifs
    · exact ⟨by simp, by simp, by simp, by simp⟩
    · exact ⟨by simp, by simp, by simp, by simp⟩
    · refine DFrame.trans (b := (seqReqStep cfg rc env url method total t0 h
        { s with st := (is_timeout rc env s.st).2 }).st) ?_ (ih _)
      exact ⟨by simp, by simp, by simp, by simp⟩

lemma seqMethodLoop_dframe (cfg : StaticCfg) (rc : RuntimeCfg) (env : Env)
    (url : String) (total : Nat) (t0 : ℚ) (ms : List String) (s : SeqLoop) :
    DFrame s.st (seqMethodLoop cfg rc env url total t0 ms s).st := by
  induction ms generalizing s with
  | nil => exact DFrame.refl _
  | cons m rest ih =>
    unfold seqMethodLoop
    dsimp only
    split_ifs
    · exact ⟨by simp, by simp, by simp, by simp⟩
    · refine DFrame.trans (b := (is_timeout rc env s.st).2) ?_ ?_
      · exact ⟨by simp, by simp, by simp, by simp⟩
      · exact seqHeaderLoop_dframe cfg rc env url m total t0 _ _
    · refine DFrame.trans (b := (seqHeaderLoop cfg rc env url m total t0
        (get_headers cfg rc) { s with st := (is_timeout rc env s.st).2 }).st)
        ?_ (ih _)
      refine DFrame.trans (b := (is_timeout rc env s.st).2) ?_ ?_
      · exact ⟨by simp, by simp, by simp, by simp⟩
      · exact seqHeaderLoop_dframe cfg rc env url m total t0 _ _

lemma seqUrlLoop_dframe (cfg : StaticCfg) (rc : RuntimeCfg) (env : Env)
    (total : Nat) (t0 : ℚ) (urls : List String) (s : SeqLoop) :
    DFrame s.st (seqUrlLoop cfg rc env total t0 urls s).st := by
  induction urls generalizing s with
  | nil => exact DFrame.refl _
  | cons u rest ih =>
    unfold seqUrlLoop
    dsimp only
    split_ifs
    · exact ⟨by simp, by simp, by simp, by simp⟩
    · refine DFrame.trans (b := (is_timeout rc env s.st).2) ?_ ?_
      · exact ⟨by simp, by simp, by simp, by simp⟩
      · exact seqMethodLoop_dframe cfg rc env u total t0 _ _
    · refine DFrame.trans (b := (seqMethodLoop cfg rc env u total t0
        (get_methods cfg rc) { s with st := (is_timeout rc env s.st).2 }).st)
        ?_ (ih _)
      refine DFrame.trans (b := (is_timeout rc env s.st).2) ?_ ?_
      · exact ⟨by simp, by simp, by simp, by simp⟩
      · exact seqMethodLoop_dframe cfg rc env u total t0 _ _

lemma run_sequential_dframe (cfg : StaticCfg) (rc : RuntimeCfg) (env : Env)
    (urls : List String) (st : St) :
    DFrame st (run_sequential cfg rc env urls st).2 := by
  unfold run_sequential readClock
  dsimp only
  exact seqUrlLoop_dframe cfg rc env _ _ urls _

lemma run_fuzz_threading_dframe (cfg : StaticCfg) (rc : RuntimeCfg) (env : Env)
    (urls : List String) (st : St) :
    DFrame st (run_fuzz_threading cfg rc env urls st).2 := by
  unfold run_fuzz_threading
  dsimp only
  split_ifs
  · exact (logInfo_dframe _ _).trans (run_sequential_dframe cfg rc env urls _)
  · exact logInfo_dframe _ _

lemma process_batches_dframe (cfg : StaticCfg) (rc : RuntimeCfg) (env : Env)
    (batches : List (List String)) (acc : List String) (st : St) :
    DFrame st (process_batches cfg rc env batches acc st).2 := by
  induction batches generalizing acc st with
  | nil => exact DFrame.refl _
  | cons batch rest ih =>
    unfold process_batches
    dsimp only
    split_ifs
    · exact ⟨by simp, by simp, by simp, by simp⟩
    · exact ⟨by simp, by simp, by simp, by simp⟩
    · refine DFrame.trans
        (b := (is_per_url_timeout rc env (is_timeout_global rc env st).2).2)
        ⟨by simp, by simp, by simp, by simp⟩ (ih _ _)
    · refine DFrame.trans
        (b := (run_fuzz_threading cfg rc env _
          (is_per_url_timeout rc env (is_timeout_global rc env st).2).2).2)
        ?_ (ih _ _)
      refine DFrame.trans
        (b := (is_per_url_timeout rc env (is_timeout_global rc env st).2).2)
        ⟨by simp, by simp, by simp, by simp⟩ ?_
      exact run_fuzz_threading_dframe cfg rc env _ _

lemma process_paths_dframe (cfg : StaticCfg) (rc : RuntimeCfg) (env : Env)
    (st : St) : DFrame st (process_paths_for_base_url cfg rc env st).2 :=
  process_batches_dframe cfg rc env _ _ _

/-! ### C4: rate limiter -/

/-- One well-timed `_coordinate_delay(d)` call moves the recorded timestamp
forward: never backwards, and by at least `d` past the previous recorded
request (the `last > 0` case means a previous request exists; `0` is the
initial sentinel). -/
lemma coordinate_delay_step_bounds (d last now t2 : ℚ) (hd : 0 < d)
    (hlast : 0 ≤ last) (hnow : 0 ≤ now)
    (hsleep : now + (d - (now - last)) ≤ t2) :
    last ≤ coordinate_delay_step (some d) last now t2 ∧
    (0 < last → last + d ≤ coordinate_delay_step (some d) last now t2) ∧
    0 ≤ coordinate_delay_step (some d) last now t2 := by
  unfold coordinate_delay_step
  dsimp only
  split_ifs with h1 h2 h3
  · linarith
  · refine ⟨by linarith, fun _ => by linarith, by linarith⟩
  · refine ⟨by linarith, fun _ => by linarith, by linarith⟩
  · have : last = 0 := by
      rcases lt_or_eq_of_le hlast with h | h
      · exact absurd h h2
      · exact h.symm
    refine ⟨by linarith, fun hc => absurd hc (by simp [this]), by linarith⟩

/-- C4: the rate limiter is a no-op for an unset or non-positive delay; and
for every sequence of well-timed calls with delay `d > 0` (each entry clock
reading nonnegative, each post-sleep reading honoring the computed sleep),
the recorded last-request timestamps are monotonically non-decreasing and
any two consecutive recorded timestamps differ by at least `d`.  The whole
body runs under `_request_timing_lock`, so concurrent workers' calls
serialize into exactly such a sequence. -/
theorem rate_limiter_spacing :
    (∀ last now t2, coordinate_delay_step none last now t2 = last) ∧
    (∀ d last now t2, d ≤ 0 → coordinate_delay_step (some d) last now t2 = last) ∧
    (∀ d calls last, 0 < d → 0 ≤ last → rl_valid d calls last →
      List.Chain (fun a b => a ≤ b ∧ (0 < a → a + d ≤ b)) last
        (rl_run d calls last)) := by
  refine ⟨fun last now t2 => rfl, fun d last now t2 hd => by
    unfold coordinate_delay_step
    simp [hd], ?_⟩
  intro d calls
  induction calls with
  | nil => intro last hd hlast hv; exact List.Chain.nil
  | cons c rest ih =>
    intro last hd hlast hv
    obtain ⟨now, t2⟩ := c
    obtain ⟨hnow, hsleep, hrest⟩ := hv
    obtain ⟨hmono, hgap, hpos⟩ :=
      coordinate_delay_step_bounds d last now t2 hd hlast hnow hsleep
    exact List.Chain.cons ⟨hmono, hgap⟩ (ih _ hd hpos hrest)

/-- Witness for C4: a concrete two-call well-timed sequence with `d = 1`. -/
theorem rate_limiter_spacing_witness :
    List.Chain (fun a b => a ≤ b ∧ (0 < a → a + 1 ≤ b)) 0
      (rl_run 1 [((5 : ℚ), 99), (6, 7)] 0) := by
  refine rate_limiter_spacing.2.2 1 [((5 : ℚ), 99), (6, 7)] 0 one_pos le_rfl ?_
  refine ⟨by norm_num, by norm_num, ?_⟩
  norm_num [rl_valid, coordinate_delay_step]

/-! ### C7: request outcome classification -/

/-- The headers actually sent: a User-Agent header is injected when none is
present (chosen by the environment's random pick for this request). -/
def uaAdjusted (env : Env) (i : Nat) (headers : Header) : Header :=
  if headers.any (fun kv => kv.1 = "User-Agent") then headers
  else headers ++ [("User-Agent", (env.user_agents.getD (env.uaPick i) ""))]

lemma coordinate_delay_req (rc : RuntimeCfg) (env : Env) (st : St) :
    (coordinate_delay rc env st).req = st.req := by
  obtain ⟨a, b, h⟩ := coordinate_delay_frame rc env st
  rw [h]

/-- C7: every request outcome becomes a formatted record and nothing is
raised past `_make_single_request`: a request timeout yields the TIMEOUT
record, a connection failure CONNECTION_ERROR, any other request exception
ERROR — each as `"<url> ---> <TAG>, <METHOD>, {}, 0 bytes"` with empty
headers and 0 bytes — and a received response yields its numeric status
code and real content length. -/
theorem request_outcome_classification (cfg : StaticCfg) (rc : RuntimeCfg)
    (env : Env) (url method : String) (headers : Header) (thr : Bool)
    (st : St) :
    (env.response st.req = HttpOutcome.timeout →
      (make_single_request cfg rc env url method headers thr st).1 =
        url ++ " ---> TIMEOUT, " ++ method ++ ", \x7b\x7d, 0 bytes") ∧
    (∀ e, env.response st.req = HttpOutcome.connError e →
      (make_single_request cfg rc env url method headers thr st).1 =
        url ++ " ---> CONNECTION_ERROR, " ++ method ++ ", \x7b\x7d, 0 bytes") ∧
    (∀ e, env.response st.req = HttpOutcome.reqError e →
      (make_single_request cfg rc env url method headers thr st).1 =
        url ++ " ---> ERROR, " ++ method ++ ", \x7b\x7d, 0 bytes") ∧
    (∀ code len, env.response st.req = HttpOutcome.response code len →
      (make_single_request cfg rc env url method headers thr st).1 =
        url ++ " ---> " ++ toString code ++ ", " ++ method ++ ", "
          ++ reprHeader (uaAdjusted env st.req headers) ++ ", "
          ++ toString len ++ " bytes") := by
  have hreq : (if thr then st else coordinate_delay rc env st).req = st.req := by
    cases thr
    · simp [coordinate_delay_req]
    · simp
  refine ⟨?_, ?_, ?_, ?_⟩
  · intro h
    unfold make_single_request
    dsimp only
    rw [hreq, h]
  · intro e h
    unfold make_single_request
    dsimp only
    rw [hreq, h]
  · intro e h
    unfold make_single_request
    dsimp only
    rw [hreq, h]
  · intro code len h
    unfold make_single_request uaAdjusted
    dsimp only
    rw [hreq, h]

/-- Witness for C7: in the scenario environment every request times out and
the first record is the TIMEOUT record. -/
theorem request_outcome_classification_witness :
    scnEnv.response (mkInitSt scnCfg).req = HttpOutcome.timeout ∧
    (make_single_request scnCfg scnRc scnEnv "http://example.com/admin" "GET"
      [] false (mkInitSt scnCfg)).1 =
      "http://example.com/admin ---> TIMEOUT, GET, \x7b\x7d, 0 bytes" :=
  ⟨rfl, (request_outcome_classification scnCfg scnRc scnEnv
    "http://example.com/admin" "GET" [] false (mkInitSt scnCfg)).1 rfl⟩

/-! ### C8: scoped swap/restore of the current target -/

/-- C8: the current-target slot is swapped in per iteration and restored to
its prior value afterwards — by the generalized try/finally scope even when
the body raises, and by the concrete multi-target loop after every
iteration, so the pre-iteration base URL is unchanged once an iteration
completes. -/
theorem target_base_url_restored :
    (∀ (env : Env) (target : String)
      (body : St → Except String (List String) × St) (st : St),
      (target_scope env target body st).2.base_url = st.base_url) ∧
    (∀ (cfg : StaticCfg) (rc : RuntimeCfg) (env : Env) (total idx : Nat)
      (targets acc : List String) (st : St),
      (url_loop cfg rc env total idx targets acc st).2.base_url
        = st.base_url) := by
  constructor
  · intro env target body st
    unfold target_scope
    rfl
  · intro cfg rc env total idx targets acc st
    induction targets generalizing idx acc st with
    | nil => rfl
    | cons t rest ih =>
      unfold url_loop
      dsimp only
      split_ifs
      · simp
      all_goals rw [ih]; simp

/-! ### C5: the global-timeout message is logged exactly once -/

/-- The fixed prefix of the one message `_log_timeout_once` receives from
`_is_timeout_global`. -/
def toPat : List Char := "Global time limit exceeded".toList

/-- Whether a log entry is the global-time-limit-exceeded info message. -/
def isGlobalTOMsg : LogMsg → Bool
  | LogMsg.info s => toPat.isPrefixOf s.toList
  | _ => false

/-- Number of global-timeout messages in a log. -/
def countTO (l : List LogMsg) : Nat := (l.filter isGlobalTOMsg).length

lemma countTO_append (l1 l2 : List LogMsg) :
    countTO (l1 ++ l2) = countTO l1 + countTO l2 := by
  simp [countTO, List.filter_append]

/-- A pattern whose overlap with `a` mismatches is not a prefix of `a ++ b`,
whatever `b` is. -/
lemma isPrefixOf_append_false {pat a : List Char} (b : List Char)
    (h : pat.take a.length ≠ a.take pat.length) :
    pat.isPrefixOf (a ++ b) = false := by
  cases hb : pat.isPrefixOf (a ++ b)
  · rfl
  · exfalso
    apply h
    obtain ⟨t, ht⟩ := List.isPrefixOf_iff_prefix.mp hb
    have h1 : (a ++ b).take (min pat.length a.length)
        = a.take (min pat.length a.length) :=
      List.take_append_of_le_length (by omega)
    have h2 : (pat ++ t).take (min pat.length a.length)
        = pat.take (min pat.length a.length) :=
      List.take_append_of_le_length (by omega)
    have h3 : a.take (min pat.length a.length)
        = pat.take (min pat.length a.length) := by
      rw [← h1, ← ht, h2]
    rcases le_total a.length pat.length with hle | hle
    · have hn : min pat.length a.length = a.length := by omega
      rw [hn] at h3
      rw [← h3, List.take_length, List.take_of_length_le hle]
    · have hn : min pat.length a.length = pat.length := by omega
      rw [hn] at h3
      rw [List.take_of_length_le hle, h3, List.take_length]

/-- Refute the timeout tag on a message with unknown tail from a mismatch
inside its concrete head. -/
lemma notTO_str (a b : String)
    (h : toPat.take a.toList.length ≠ a.toList.take toPat.length) :
    isGlobalTOMsg (LogMsg.info (a ++ b)) = false := by
  show toPat.isPrefixOf (a ++ b).toList = false
  have htl : (a ++ b).toList = a.toList ++ b.toList := by
    simp [String.toList]
  rw [htl]
  exact isPrefixOf_append_false _ h

/-- Refute the timeout tag on a fully concrete message. -/
lemma notTO_lit (s : String) (h : toPat.isPrefixOf s.toList = false) :
    isGlobalTOMsg (LogMsg.info s) = false := h

@[simp] lemma notTO_warning (s : String) :
    isGlobalTOMsg (LogMsg.warning s) = false := rfl

@[simp] lemma notTO_error (s : String) :
    isGlobalTOMsg (LogMsg.error s) = false := rfl

/-- The message `_is_timeout_global` logs carries the counted prefix. -/
lemma isTO_globalTimeoutMsg (e l : ℚ) :
    isGlobalTOMsg (LogMsg.info (globalTimeoutMsg e l)) = true := by
  show toPat.isPrefixOf (globalTimeoutMsg e l).toList = true
  rw [List.isPrefixOf_iff_prefix]
  unfold globalTimeoutMsg
  simp only [String.append_assoc]
  have htl : ("Global time limit exceeded: " ++ (toString e ++ ("min > "
      ++ (toString l ++ "min")))).toList =
      "Global time limit exceeded: ".toList ++ (toString e ++ ("min > "
      ++ (toString l ++ "min"))).toList := by
    simp [String.toList]
  rw [htl]
  have hsplit : "Global time limit exceeded: ".toList
      = toPat ++ ": ".toList := by decide
  rw [hsplit, List.append_assoc]
  exact List.prefix_append _ _

/-- The logging invariant: the number of global-timeout messages plus the
"not yet logged" budget.  Every operation of the engine preserves it
exactly, so a run from a fresh state logs the message exactly once if and
only if the flag gets set, and never twice. -/
def toInv (st : St) : Nat :=
  countTO st.log + (if st.time_hit_logged then 0 else 1)

/-- The collaborator-provided status colorizer never fabricates a line that
starts with the counted prefix (true of the real collaborator, which only
prepends ANSI escapes). -/
def HColorOK (cfg : StaticCfg) : Prop :=
  ∀ code r, isGlobalTOMsg (LogMsg.info (cfg.color_status_code code r)) = false

lemma countTO_single_info_false {m : String}
    (hm : isGlobalTOMsg (LogMsg.info m) = false) :
    countTO [LogMsg.info m] = 0 := by
  simp [countTO, hm]

@[simp] lemma coordinate_delay_log (rc : RuntimeCfg) (env : Env) (st : St) :
    (coordinate_delay rc env st).log = st.log := by
  obtain ⟨a, b, h⟩ := coordinate_delay_frame rc env st
  rw [h]

@[simp] lemma coordinate_delay_flag (rc : RuntimeCfg) (env : Env) (st : St) :
    (coordinate_delay rc env st).time_hit_logged = st.time_hit_logged := by
  obtain ⟨a, b, h⟩ := coordinate_delay_frame rc env st
  rw [h]

lemma toInv_logInfo {m : String} (st : St)
    (hm : isGlobalTOMsg (LogMsg.info m) = false) :
    toInv (logInfo m st) = toInv st := by
  unfold toInv logInfo
  rw [countTO_append, countTO_single_info_false hm]
  simp

@[simp] lemma toInv_logWarn (m : String) (st : St) :
    toInv (logWarn m st) = toInv st := by
  unfold toInv logWarn
  rw [countTO_append]
  simp [countTO]

@[simp] lemma toInv_logErr (m : String) (st : St) :
    toInv (logErr m st) = toInv st := by
  unfold toInv logErr
  rw [countTO_append]
  simp [countTO]

@[simp] lemma toInv_readClock (env : Env) (st : St) :
    toInv (readClock env st).2 = toInv st := rfl

lemma toInv_log_timeout_once {m : String} (st : St)
    (hm : isGlobalTOMsg (LogMsg.info m) = true) :
    toInv (log_timeout_once m st) = toInv st := by
  unfold log_timeout_once
  split_ifs with h
  · rfl
  · unfold toInv logInfo
    rw [countTO_append]
    simp [countTO, hm, h]

@[simp] lemma toInv_is_timeout_global (rc : RuntimeCfg) (env : Env) (st : St) :
    toInv (is_timeout_global rc env st).2 = toInv st := by
  unfold is_timeout_global
  dsimp only
  split_ifs with h
  · rfl
  · split
    · split_ifs with h2
      · exact toInv_log_timeout_once _ (isTO_globalTimeoutMsg _ _)
      · rfl
    · rfl

@[simp] lemma toInv_is_per_url_timeout (rc : RuntimeCfg) (env : Env)
    (st : St) : toInv (is_per_url_timeout rc env st).2 = toInv st := by
  unfold is_per_url_timeout
  split
  · rfl
  · rfl

@[simp] lemma toInv_is_timeout (rc : RuntimeCfg) (env : Env) (st : St) :
    toInv (is_timeout rc env st).2 = toInv st := by
  unfold is_timeout
  dsimp only
  split_ifs with h
  · simp
  · simp

@[simp] lemma toInv_coordinate_delay (rc : RuntimeCfg) (env : Env) (st : St) :
    toInv (coordinate_delay rc env st) = toInv st := by
  obtain ⟨a, b, h⟩ := coordinate_delay_frame rc env st
  rw [h]
  rfl

lemma toInv_make_single_request (cfg : StaticCfg) (rc : RuntimeCfg)
    (env : Env) (url method : String) (headers : Header) (thr : Bool)
    (hc : HColorOK cfg) (st : St) :
    toInv (make_single_request cfg rc env url method headers thr st).2
      = toInv st := by
  unfold make_single_request
  dsimp only
  rcases env.response (if thr then st else coordinate_delay rc env st).req
    with ⟨code, len⟩ | - | ⟨e⟩ | ⟨e⟩ <;> dsimp only <;> cases thr <;>
    simp only [reduceIte, Bool.false_eq_true] <;>
    first
      | (split_ifs <;>
          simp [toInv_logInfo _ (hc _ _), toInv, logInfo, countTO_append,
            countTO, hc _ _])
      | simp [toInv, logWarn, logErr, countTO_append, countTO]

lemma toInv_log_progress (cur total : Nat) (st : St) :
    toInv (log_progress cur total "Request processing" st) = toInv st := by
  unfold log_progress
  dsimp only
  split_ifs with h1 h2
  · refine toInv_logInfo st ?_
    simp only [String.append_assoc]
    exact notTO_str _ _ (by decide)
  · rfl
  · rfl

lemma toInv_log_progress_with_time (cfg : StaticCfg) (env : Env)
    (cur total : Nat) (t0 : ℚ) (st : St) :
    toInv (log_progress_with_time cfg env cur total "Request processing" t0
      st) = toInv st := by
  unfold log_progress_with_time
  dsimp only
  split_ifs with h1 h2 h3
  · refine Eq.trans (toInv_logInfo _ ?_) rfl
    simp only [String.append_assoc]
    exact notTO_str _ _ (by decide)
  · rfl
  · rfl
  · rfl

lemma toInv_log_global_timeout_remaining (cfg : StaticCfg) (rc : RuntimeCfg)
    (env : Env) (st : St) :
    toInv (log_global_timeout_remaining cfg rc env st) = toInv st := by
  unfold log_global_timeout_remaining
  dsimp only
  split_ifs with h1 h2
  · refine Eq.trans (toInv_logInfo _ ?_) rfl
    simp only [String.append_assoc]
    exact notTO_str _ _ (by decide)
  · rfl
  · rfl

lemma toInv_seqReqStep (cfg : StaticCfg) (rc : RuntimeCfg) (env : Env)
    (url method : String) (total : Nat) (t0 : ℚ) (h : Header)
    (hc : HColorOK cfg) (s : SeqLoop) :
    toInv (seqReqStep cfg rc env url method total t0 h s).st = toInv s.st := by
  unfold seqReqStep
  dsimp only
  split_ifs <;>
    simp only [toInv_logWarn,
      toInv_make_single_request cfg rc env url method h false hc,
      toInv_log_global_timeout_remaining, toInv_log_progress_with_time]

lemma toInv_seqHeaderLoop (cfg : StaticCfg) (rc : RuntimeCfg) (env : Env)
    (url method : String) (total : Nat) (t0 : ℚ) (hs : List Header)
    (hc : HColorOK cfg) (s : SeqLoop) :
    toInv (seqHeaderLoop cfg rc env url method total t0 hs s).st
      = toInv s.st := by
  induction hs generalizing s with
  | nil => rfl
  | cons h rest ih =>
    unfold seqHeaderLoop
    dsimp only
    split_ifs
    · simp
    · rw [toInv_seqReqStep cfg rc env url method total t0 h hc]
      simp
    · rw [ih, toInv_seqReqStep cfg rc env url method total t0 h hc]
      simp

lemma toInv_seqMethodLoop (cfg : StaticCfg) (rc : RuntimeCfg) (env : Env)
    (url : String) (total : Nat) (t0 : ℚ) (ms : List String)
    (hc : HColorOK cfg) (s : SeqLoop) :
    toInv (seqMethodLoop cfg rc env url total t0 ms s).st = toInv s.st := by
  induction ms generalizing s with
  | nil => rfl
  | cons m rest ih =>
    unfold seqMethodLoop
    dsimp only
    split_ifs
    · simp
    · rw [toInv_seqHeaderLoop cfg rc env url m total t0 _ hc]
      simp
    · rw [ih, toInv_seqHeaderLoop cfg rc env url m total t0 _ hc]
      simp

lemma toInv_seqUrlLoop (cfg : StaticCfg) (rc : RuntimeCfg) (env : Env)
    (total : Nat) (t0 : ℚ) (urls : List String) (hc : HColorOK cfg)
    (s : SeqLoop) :
    toInv (seqUrlLoop cfg rc env total t0 urls s).st = toInv s.st := by
  induction urls generalizing s with
  | nil => rfl
  | cons u rest ih =>
    unfold seqUrlLoop
    dsimp only
    split_ifs
    · simp
    · rw [toInv_seqMethodLoop cfg rc env u total t0 _ hc]
      simp
    · rw [ih, toInv_seqMethodLoop cfg rc env u total t0 _ hc]
      simp

lemma toInv_run_sequential (cfg : StaticCfg) (rc : RuntimeCfg) (env : Env)
    (urls : List String) (hc : HColorOK cfg) (st : St) :
    toInv (run_sequential cfg rc env urls st).2 = toInv st := by
  unfold run_sequential
  dsimp only
  rw [toInv_seqUrlLoop cfg rc env _ _ urls hc]
  simp

lemma toInv_run_fuzz_threading (cfg : StaticCfg) (rc : RuntimeCfg) (env : Env)
    (urls : List String) (hc : HColorOK cfg) (st : St) :
    toInv (run_fuzz_threading cfg rc env urls st).2 = toInv st := by
  unfold run_fuzz_threading
  dsimp only
  split_ifs
  · rw [toInv_run_sequential cfg rc env urls hc]
    refine toInv_logInfo _ ?_
    simp only [String.append_assoc]
    exact notTO_str _ _ (by decide)
  · refine toInv_logInfo _ ?_
    simp only [String.append_assoc]
    exact notTO_str _ _ (by decide)

lemma toInv_process_batches (cfg : StaticCfg) (rc : RuntimeCfg) (env : Env)
    (batches : List (List String)) (acc : List String) (hc : HColorOK cfg)
    (st : St) :
    toInv (process_batches cfg rc env batches acc st).2 = toInv st := by
  induction batches generalizing acc st with
  | nil => rfl
  | cons batch rest ih =>
    unfold process_batches
    dsimp only
    split_ifs
    · simp
    · rw [toInv_logInfo _ (by decide)]
      simp
    · rw [ih]
      simp
    · rw [ih, toInv_run_fuzz_threading cfg rc env _ hc]
      simp

lemma toInv_process_paths (cfg : StaticCfg) (rc : RuntimeCfg) (env : Env)
    (hc : HColorOK cfg) (st : St) :
    toInv (process_paths_for_base_url cfg rc env st).2 = toInv st :=
  toInv_process_batches cfg rc env _ _ hc st

lemma mem_optLine {c : Bool} {s m : String} (h : m ∈ optLine c s) : m = s := by
  unfold optLine at h
  split at h
  · simpa using h
  · simp at h

/-- No configuration-display line carries the counted timeout prefix. -/
lemma displayLines_notTO (cfg : StaticCfg) (rc : RuntimeCfg) (b : String) :
    ∀ m ∈ displayLines cfg rc b, isGlobalTOMsg (LogMsg.info m) = false := by
  intro m hm
  unfold displayLines at hm
  simp only [List.mem_append] at hm
  obtain ((((((((((((h1 | h2) | h3) | h4) | h5) | h6) | h7) | h8) | h9) | h10)
    | h11) | h12) | h13) | h14 := hm
  · simp only [List.mem_cons, List.mem_singleton, List.not_mem_nil,
      or_false] at h1
    rcases h1 with h | h | h <;> subst h <;> decide
  · rw [mem_optLine h2]
    exact notTO_str _ _ (by decide)
  · rw [mem_optLine h3]
    simp only [String.append_assoc]
    exact notTO_str _ _ (by decide)
  · split at h4
    · simp only [List.mem_cons, List.mem_singleton, List.not_mem_nil,
        or_false] at h4
      rcases h4 with h | h <;> subst h <;>
        first
          | decide
          | (exact notTO_str _ _ (by decide))
          | (simp only [String.append_assoc]; exact notTO_str _ _ (by decide))
    · simp at h4
  · split at h5
    · simp only [List.mem_singleton] at h5
      subst h5
      first
        | (exact notTO_str _ _ (by decide))
        | (simp only [String.append_assoc]; exact notTO_str _ _ (by decide))
    · split at h5
      · split at h5 <;>
          · simp only [List.mem_singleton] at h5
            subst h5
            simp only [String.append_assoc]
            exact notTO_str _ _ (by decide)
      · simp only [List.mem_singleton] at h5
        subst h5
        first
          | (exact notTO_str _ _ (by decide))
          | (simp only [String.append_assoc]; exact notTO_str _ _ (by decide))
  · split at h6
    · simp only [List.mem_singleton] at h6
      subst h6
      first
        | (exact notTO_str _ _ (by decide))
        | (simp only [String.append_assoc]; exact notTO_str _ _ (by decide))
    · split at h6
      · split at h6 <;>
          · simp only [List.mem_singleton] at h6
            subst h6
            simp only [String.append_assoc]
            exact notTO_str _ _ (by decide)
      · simp only [List.mem_singleton] at h6
        subst h6
        decide
  · split at h7
    · simp only [List.mem_cons, List.mem_singleton, List.not_mem_nil,
        or_false] at h7
      rcases h7 with h | h <;> subst h <;>
        · simp only [String.append_assoc]
          exact notTO_str _ _ (by decide)
    · simp only [List.mem_singleton] at h7
      subst h7
      decide
  · simp only [List.mem_singleton] at h8
    subst h8
    split
    · simp only [String.append_assoc]
      exact notTO_str _ _ (by decide)
    · decide
  · rw [mem_optLine h9]
    simp only [String.append_assoc]
    exact notTO_str _ _ (by decide)
  · rw [mem_optLine h10]
    simp only [String.append_assoc]
    exact notTO_str _ _ (by decide)
  · simp only [List.mem_cons, List.mem_singleton, List.not_mem_nil,
      or_false] at h11
    rcases h11 with h | h | h <;> subst h <;>
      first
        | decide
        | (simp only [String.append_assoc]; exact notTO_str _ _ (by decide))
  · split at h12
    · simp only [List.mem_singleton] at h12
      subst h12
      exact notTO_str _ _ (by decide)
    · simp at h12
  · rw [mem_optLine h13]
    exact notTO_str _ _ (by decide)
  · simp only [List.mem_singleton] at h14
    subst h14
    decide

lemma countTO_map_info {l : List String}
    (h : ∀ m ∈ l, isGlobalTOMsg (LogMsg.info m) = false) :
    countTO (l.map LogMsg.info) = 0 := by
  induction l with
  | nil => rfl
  | cons x xs ih =>
    simp only [List.map_cons]
    show countTO ([LogMsg.info x] ++ xs.map LogMsg.info) = 0
    rw [countTO_append, countTO_single_info_false (h x (by simp)),
      ih (fun m hm => h m (by simp [hm]))]

lemma toInv_display_configuration (cfg : StaticCfg) (rc : RuntimeCfg)
    (st : St) : toInv (display_configuration cfg rc st) = toInv st := by
  unfold display_configuration toInv
  dsimp only
  rw [countTO_append, countTO_map_info (displayLines_notTO cfg rc st.base_url)]
  omega

@[simp] lemma toInv_set_files (st : St) (F : List (String × List String)) :
    toInv { st with files := F } = toInv st := rfl

lemma toInv_finalize_results (cfg : StaticCfg) (rc : RuntimeCfg)
    (results : List String) (st : St) :
    toInv (finalize_results cfg rc results st).2 = toInv st := by
  have n1 : ∀ (st' : St) (x : String),
      toInv (logInfo ("Total results before filtering: " ++ x) st')
        = toInv st' :=
    fun st' x => toInv_logInfo st' (notTO_str _ _ (by decide))
  have n2 : ∀ (st' : St) (x y : String),
      toInv (logInfo ("Results after filtering by status " ++ x ++ ": " ++ y)
        st') = toInv st' :=
    fun st' x y => toInv_logInfo st'
      (by simp only [String.append_assoc]; exact notTO_str _ _ (by decide))
  have n3 : ∀ (st' : St) (x y : String),
      toInv (logInfo ("Written " ++ x ++ " results to " ++ y) st')
        = toInv st' :=
    fun st' x y => toInv_logInfo st'
      (by simp only [String.append_assoc]; exact notTO_str _ _ (by decide))
  have n4 : ∀ (st' : St),
      toInv (logInfo "No results matched filter criteria - no file written"
        st') = toInv st' :=
    fun st' => toInv_logInfo st' (by decide)
  have n5 : ∀ (st' : St) (x y : String),
      toInv (logInfo ("Logged during execution: " ++ x
        ++ " results matching " ++ y) st') = toInv st' :=
    fun st' x y => toInv_logInfo st'
      (by simp only [String.append_assoc]; exact notTO_str _ _ (by decide))
  unfold finalize_results
  dsimp only
  split <;> (try dsimp only) <;> (try split_ifs) <;>
    simp only [n1, n2, n3, n4, n5, toInv_set_files]

@[simp] lemma toInv_set_curr (st : St) (x : Option ℚ) :
    toInv { st with current_url_start_time := x } = toInv st := rfl

@[simp] lemma toInv_set_base (st : St) (x : String) :
    toInv { st with base_url := x } = toInv st := rfl

@[simp] lemma toInv_set_scan (st : St) (x : Option ℚ) :
    toInv { st with scan_start_time := x } = toInv st := rfl

@[simp] lemma toInv_set_logged (st : St) (x : Nat) :
    toInv { st with logged_count := x } = toInv st := rfl

lemma toInv_url_loop (cfg : StaticCfg) (rc : RuntimeCfg) (env : Env)
    (total : Nat) (hc : HColorOK cfg) (targets : List String) :
    ∀ (idx : Nat) (acc : List String) (st : St),
      toInv (url_loop cfg rc env total idx targets acc st).2 = toInv st := by
  have nStart : ∀ (st' : St) (x y z : String),
      toInv (logInfo ("Starting URL " ++ x ++ "/" ++ y ++ ": " ++ z) st')
        = toInv st' :=
    fun st' x y z => toInv_logInfo st'
      (by simp only [String.append_assoc]; exact notTO_str _ _ (by decide))
  have nStop : ∀ (st' : St) (x : String),
      toInv (logInfo ("Global timeout reached, stopping at URL " ++ x) st')
        = toInv st' :=
    fun st' x => toInv_logInfo st' (notTO_str _ _ (by decide))
  have nFin : ∀ (st' : St) (x y : String),
      toInv (logInfo ("Finished URL " ++ x ++ ": " ++ y ++ " results") st')
        = toInv st' :=
    fun st' x y => toInv_logInfo st'
      (by simp only [String.append_assoc]; exact notTO_str _ _ (by decide))
  induction targets with
  | nil => intro idx acc st; rfl
  | cons t rest ih =>
    intro idx acc st
    unfold url_loop
    dsimp only
    split_ifs with hg hp
    · rw [nStop]
      simp only [toInv_is_timeout_global]
      rw [nStart]
    · rw [ih]
      change toInv (logInfo _ _) = _
      rw [nFin, toInv_process_paths cfg rc env hc]
      change toInv (is_timeout_global _ _ _).2 = _
      simp only [toInv_is_timeout_global]
      rw [nStart]
    · rw [ih]
      change toInv (logInfo _ _) = _
      rw [nFin, toInv_run_fuzz_threading cfg rc env _ hc]
      change toInv (is_timeout_global _ _ _).2 = _
      simp only [toInv_is_timeout_global]
      rw [nStart]

lemma toInv_fuzzer_run (cfg : StaticCfg) (rc : RuntimeCfg) (env : Env)
    (hc : HColorOK cfg) (st : St) :
    toInv (fuzzer_run cfg rc env st).2 = toInv st := by
  unfold fuzzer_run process_url_list
  dsimp only
  split_ifs with h1 h2
  · rw [toInv_finalize_results, toInv_url_loop cfg rc env _ hc,
      toInv_display_configuration]
    rfl
  · rw [toInv_finalize_results, toInv_process_paths cfg rc env hc,
      toInv_display_configuration]
    rfl
  · rw [toInv_finalize_results, toInv_display_configuration]
    rfl

/-! Stop-event monotonicity: the cancellation flag, once set, is never
cleared by any operation of the engine. -/

@[simp] lemma readClock_stop (env : Env) (st : St) :
    (readClock env st).2.stop_event = st.stop_event := rfl

@[simp] lemma logInfo_stop (m : String) (st : St) :
    (logInfo m st).stop_event = st.stop_event := rfl

@[simp] lemma logWarn_stop (m : String) (st : St) :
    (logWarn m st).stop_event = st.stop_event := rfl

@[simp] lemma logErr_stop (m : String) (st : St) :
    (logErr m st).stop_event = st.stop_event := rfl

@[simp] lemma coordinate_delay_stop (rc : RuntimeCfg) (env : Env) (st : St) :
    (coordinate_delay rc env st).stop_event = st.stop_event := by
  obtain ⟨a, b, h⟩ := coordinate_delay_frame rc env st
  rw [h]

@[simp] lemma make_single_request_stop (cfg : StaticCfg) (rc : RuntimeCfg)
    (env : Env) (url method : String) (headers : Header) (thr : Bool)
    (st : St) :
    (make_single_request cfg rc env url method headers thr st).2.stop_event
      = st.stop_event := by
  obtain ⟨a, b, c, d, e, h⟩ :=
    make_single_request_frame cfg rc env url method headers thr st
  rw [h]

@[simp] lemma is_per_url_timeout_stop (rc : RuntimeCfg) (env : Env)
    (st : St) :
    (is_per_url_timeout rc env st).2.stop_event = st.stop_event := by
  obtain ⟨d, h⟩ := is_per_url_timeout_frame rc env st
  rw [h]

@[simp] lemma log_progress_stop (cur total : Nat) (op : String) (st : St) :
    (log_progress cur total op st).stop_event = st.stop_event := by
  unfold log_progress
  dsimp only
  split_ifs <;> simp

@[simp] lemma log_progress_with_time_stop (cfg : StaticCfg) (env : Env)
    (cur total : Nat) (op : String) (t0 : ℚ) (st : St) :
    (log_progress_with_time cfg env cur total op t0 st).stop_event
      = st.stop_event := by
  unfold log_progress_with_time
  dsimp only
  split_ifs <;> simp

@[simp] lemma log_global_timeout_remaining_stop (cfg : StaticCfg)
    (rc : RuntimeCfg) (env : Env) (st : St) :
    (log_global_timeout_remaining cfg rc env st).stop_event
      = st.stop_event := by
  unfold log_global_timeout_remaining
  dsimp only
  split_ifs <;> simp

@[simp] lemma seqReqStep_stop (cfg : StaticCfg) (rc : RuntimeCfg) (env : Env)
    (url method : String) (total : Nat) (t0 : ℚ) (h : Header) (s : SeqLoop) :
    (seqReqStep cfg rc env url method total t0 h s).st.stop_event
      = s.st.stop_event := by
  unfold seqReqStep
  dsimp only
  split_ifs <;> simp

@[simp] lemma display_configuration_stop (cfg : StaticCfg) (rc : RuntimeCfg)
    (st : St) :
    (display_configuration cfg rc st).stop_event = st.stop_event := rfl

@[simp] lemma finalize_results_stop (cfg : StaticCfg) (rc : RuntimeCfg)
    (results : List String) (st : St) :
    (finalize_results cfg rc results st).2.stop_event = st.stop_event := by
  unfold finalize_results
  dsimp only
  split <;> (try dsimp only) <;> (try split_ifs) <;> simp

/-- A tripped stop event makes `_is_timeout_global` answer `True` and
change nothing. -/
lemma is_timeout_global_stopped (rc : RuntimeCfg) (env : Env) (st : St)
    (h : st.stop_event = true) : is_timeout_global rc env st = (true, st) := by
  unfold is_timeout_global
  simp [h]

lemma is_timeout_stopped (rc : RuntimeCfg) (env : Env) (st : St)
    (h : st.stop_event = true) : is_timeout rc env st = (true, st) := by
  unfold is_timeout
  rw [is_timeout_global_stopped rc env st h]
  simp

lemma log_timeout_once_mono (m : String) (st : St)
    (h : st.stop_event = true) :
    (log_timeout_once m st).stop_event = true := by
  unfold log_timeout_once
  split_ifs
  · exact h
  · rfl

lemma is_timeout_global_mono (rc : RuntimeCfg) (env : Env) (st : St)
    (h : st.stop_event = true) :
    (is_timeout_global rc env st).2.stop_event = true := by
  rw [is_timeout_global_stopped rc env st h]
  exact h

lemma is_timeout_mono (rc : RuntimeCfg) (env : Env) (st : St)
    (h : st.stop_event = true) :
    (is_timeout rc env st).2.stop_event = true := by
  rw [is_timeout_stopped rc env st h]
  exact h

lemma seqHeaderLoop_mono (cfg : StaticCfg) (rc : RuntimeCfg) (env : Env)
    (url method : String) (total : Nat) (t0 : ℚ) (hs : List Header) :
    ∀ s : SeqLoop, s.st.stop_event = true →
      (seqHeaderLoop cfg rc env url method total t0 hs s).st.stop_event
        = true := by
  induction hs with
  | nil => intro s h; exact h
  | cons hh rest ih =>
    intro s h
    unfold seqHeaderLoop
    dsimp only
    split_ifs
    · exact is_timeout_mono rc env s.st h
    · simp [is_timeout_mono rc env s.st h]
    · refine ih _ ?_
      simp [is_timeout_mono rc env s.st h]

lemma seqMethodLoop_mono (cfg : StaticCfg) (rc : RuntimeCfg) (env : Env)
    (url : String) (total : Nat) (t0 : ℚ) (ms : List String) :
    ∀ s : SeqLoop, s.st.stop_event = true →
      (seqMethodLoop cfg rc env url total t0 ms s).st.stop_event = true := by
  induction ms with
  | nil => intro s h; exact h
  | cons m rest ih =>
    intro s h
    unfold seqMethodLoop
    dsimp only
    split_ifs
    · exact is_timeout_mono rc env s.st h
    · exact seqHeaderLoop_mono cfg rc env url m total t0 _ _
        (is_timeout_mono rc env s.st h)
    · refine ih _ ?_
      exact seqHeaderLoop_mono cfg rc env url m total t0 _ _
        (is_timeout_mono rc env s.st h)

lemma seqUrlLoop_mono (cfg : StaticCfg) (rc : RuntimeCfg) (env : Env)
    (total : Nat) (t0 : ℚ) (urls : List String) :
    ∀ s : SeqLoop, s.st.stop_event = true →
      (seqUrlLoop cfg rc env total t0 urls s).st.stop_event = true := by
  induction urls with
  | nil => intro s h; exact h
  | cons u rest ih =>
    intro s h
    unfold seqUrlLoop
    dsimp only
    split_ifs
    · exact is_timeout_mono rc env s.st h
    · exact seqMethodLoop_mono cfg rc env u total t0 _ _
        (is_timeout_mono rc env s.st h)
    · refine ih _ ?_
      exact seqMethodLoop_mono cfg rc env u total t0 _ _
        (is_timeout_mono rc env s.st h)

lemma run_sequential_mono (cfg : StaticCfg) (rc : RuntimeCfg) (env : Env)
    (urls : List String) (st : St) (h : st.stop_event = true) :
    (run_sequential cfg rc env urls st).2.stop_event = true := by
  unfold run_sequential
  dsimp only
  exact seqUrlLoop_mono cfg rc env _ _ urls _ h

lemma run_fuzz_threading_mono (cfg : StaticCfg) (rc : RuntimeCfg) (env : Env)
    (urls : List String) (st : St) (h : st.stop_event = true) :
    (run_fuzz_threading cfg rc env urls st).2.stop_event = true := by
  unfold run_fuzz_threading
  dsimp only
  split_ifs
  · exact run_sequential_mono cfg rc env urls _ (by simpa using h)
  · simpa using h

lemma process_batches_mono (cfg : StaticCfg) (rc : RuntimeCfg) (env : Env)
    (batches : List (List String)) :
    ∀ (acc : List String) (st : St), st.stop_event = true →
      (process_batches cfg rc env batches acc st).2.stop_event = true := by
  induction batches with
  | nil => intro acc st h; exact h
  | cons batch rest ih =>
    intro acc st h
    unfold process_batches
    dsimp only
    split_ifs
    · exact is_timeout_global_mono rc env st h
    · simp [is_timeout_global_mono rc env st h]
    · refine ih _ _ ?_
      simp [is_timeout_global_mono rc env st h]
    · refine ih _ _ ?_
      refine run_fuzz_threading_mono cfg rc env _ _ ?_
      simp [is_timeout_global_mono rc env st h]

lemma process_paths_mono (cfg : StaticCfg) (rc : RuntimeCfg) (env : Env)
    (st : St) (h : st.stop_event = true) :
    (process_paths_for_base_url cfg rc env st).2.stop_event = true :=
  process_batches_mono cfg rc env _ _ _ h

lemma url_loop_mono (cfg : StaticCfg) (rc : RuntimeCfg) (env : Env)
    (total : Nat) (targets : List String) :
    ∀ (idx : Nat) (acc : List String) (st : St), st.stop_event = true →
      (url_loop cfg rc env total idx targets acc st).2.stop_event = true := by
  induction targets with
  | nil => intro idx acc st h; exact h
  | cons t rest ih =>
    intro idx acc st h
    have hg : ((is_timeout_global rc env (logInfo ("Starting URL "
        ++ toString idx ++ "/" ++ toString total ++ ": " ++ t)
        st)).2).stop_event = true :=
      is_timeout_global_mono rc env _ h
    unfold url_loop
    dsimp only
    split_ifs
    · simp only [logInfo_stop]
      exact hg
    · refine ih _ _ _ ?_
      dsimp only
      simp only [logInfo_stop]
      exact process_paths_mono cfg rc env _ hg
    · refine ih _ _ _ ?_
      dsimp only
      simp only [logInfo_stop]
      exact run_fuzz_threading_mono cfg rc env _ _ hg

lemma fuzzer_run_mono (cfg : StaticCfg) (rc : RuntimeCfg) (env : Env)
    (st : St) (h : st.stop_event = true) :
    (fuzzer_run cfg rc env st).2.stop_event = true := by
  unfold fuzzer_run process_url_list
  dsimp only
  split_ifs
  · rw [finalize_results_stop]
    exact url_loop_mono cfg rc env _ _ _ _ _ h
  · rw [finalize_results_stop]
    exact process_batches_mono cfg rc env _ _ _ h
  · rw [finalize_results_stop]
    exact h

/-- An arbitrary number of `_is_timeout_global` checks, from any callers
(each check's critical section is lock-protected, so concurrent checks
serialize into this fold). -/
def globalChecks (rc : RuntimeCfg) (env : Env) : Nat → St → St
  | 0, st => st
  | n + 1, st => globalChecks rc env n (is_timeout_global rc env st).2

/-- Whether one of the next `n` clock readings, starting at index `clk`,
lies past the global deadline (`scanStart s0`, limit `lim` minutes). -/
def tripsIn (env : Env) (lim s0 : ℚ) (clk n : Nat) : Bool :=
  (List.range n).any (fun i => decide ((env.clock (clk + i) - s0) / 60 > lim))

lemma tripsIn_succ (env : Env) (lim s0 : ℚ) (clk n : Nat) :
    tripsIn env lim s0 clk (n + 1) =
      (decide ((env.clock clk - s0) / 60 > lim)
        || tripsIn env lim s0 (clk + 1) n) := by
  unfold tripsIn
  rw [List.range_succ_eq_map]
  simp only [List.any_cons, List.any_map, Nat.add_zero]
  have hfun : ((fun i => decide ((env.clock (clk + i) - s0) / 60 > lim))
      ∘ Nat.succ)
      = (fun i => decide ((env.clock (clk + 1 + i) - s0) / 60 > lim)) := by
    funext i
    simp only [Function.comp, Nat.succ_eq_add_one]
    have hi : clk + (i + 1) = clk + 1 + i := by omega
    rw [hi]
  rw [hfun]

lemma globalChecks_stopped (rc : RuntimeCfg) (env : Env) (n : Nat) :
    ∀ st : St, st.stop_event = true → globalChecks rc env n st = st := by
  induction n with
  | zero => intro st h; rfl
  | succ n ih =>
    intro st h
    unfold globalChecks
    rw [is_timeout_global_stopped rc env st h]
    exact ih st h

/-- Exactly-once fold: over any sequence of global-timeout checks from a
fresh state, the message is appended exactly once iff some check's reading
lies past the deadline, and the stop event is set accordingly (the first
detector sets it; later checks short-circuit). -/
lemma globalChecks_fold (rc : RuntimeCfg) (env : Env) (lim s0 : ℚ)
    (hrc : rc.time = some lim) :
    ∀ (n : Nat) (st : St), st.scan_start_time = some s0 →
      st.stop_event = false → st.time_hit_logged = false →
      countTO (globalChecks rc env n st).log
          = countTO st.log + (if tripsIn env lim s0 st.clk n then 1 else 0)
        ∧ (globalChecks rc env n st).stop_event
          = tripsIn env lim s0 st.clk n := by
  intro n
  induction n with
  | zero =>
    intro st h1 h2 h3
    exact ⟨by simp [globalChecks, tripsIn], by simp [globalChecks, tripsIn, h2]⟩
  | succ n ih =>
    intro st h1 h2 h3
    unfold globalChecks is_timeout_global readClock
    dsimp only
    rw [if_neg (by simp [h2])]
    rw [show ({ st with clk := st.clk + 1 } : St).scan_start_time = some s0
      from h1, hrc]
    dsimp only
    rw [tripsIn_succ]
    by_cases htrip : (env.clock st.clk - s0) / 60 > lim
    · rw [if_pos htrip]
      unfold log_timeout_once
      rw [if_neg (by simp [h3])]
      rw [globalChecks_stopped rc env n _ rfl]
      constructor
      · show countTO ((logInfo _ _).log) = _
        unfold logInfo
        dsimp only
        rw [countTO_append]
        simp [countTO, isTO_globalTimeoutMsg, htrip]
      · simp [htrip]
    · rw [if_neg htrip]
      dsimp only
      obtain ⟨hc1, hc2⟩ :=
        ih { st with scan_start_time := some s0, clk := st.clk + 1 } rfl h2 h3
      refine ⟨Eq.trans hc1 ?_, Eq.trans hc2 ?_⟩
      · show countTO st.log
            + (if tripsIn env lim s0 (st.clk + 1) n then 1 else 0)
          = countTO st.log
            + (if (decide ((env.clock st.clk - s0) / 60 > lim)
                || tripsIn env lim s0 (st.clk + 1) n) then 1 else 0)
        simp [htrip]
      · show tripsIn env lim s0 (st.clk + 1) n = _
        simp [htrip]

/-- C5: no matter how many times (and from how many threads — the check
body is lock-serialized) the global-timeout check runs after the deadline
has passed, the "Global time limit exceeded" message is logged exactly
once and the stop event is set by the first detector; once set, no
operation of the run ever clears it, and a whole run from a fresh state
logs the message at most once. -/
theorem global_timeout_logged_once (cfg : StaticCfg) (rc : RuntimeCfg)
    (env : Env) :
    (∀ lim s0 n st, rc.time = some lim → st.scan_start_time = some s0 →
      st.stop_event = false → st.time_hit_logged = false →
      countTO (globalChecks rc env n st).log
          = countTO st.log + (if tripsIn env lim s0 st.clk n then 1 else 0)
        ∧ (globalChecks rc env n st).stop_event
          = tripsIn env lim s0 st.clk n) ∧
    (∀ n st, st.stop_event = true → globalChecks rc env n st = st) ∧
    (∀ st, st.stop_event = true →
      (fuzzer_run cfg rc env st).2.stop_event = true) ∧
    (HColorOK cfg → ∀ st, st.time_hit_logged = false → countTO st.log = 0 →
      countTO ((fuzzer_run cfg rc env st).2).log ≤ 1) := by
  refine ⟨?_, globalChecks_stopped rc env, fuzzer_run_mono cfg rc env, ?_⟩
  · intro lim s0 n st hrc h1 h2 h3
    exact globalChecks_fold rc env lim s0 hrc n st h1 h2 h3
  · intro hc st h1 h2
    have hrinv := toInv_fuzzer_run cfg rc env hc st
    have hle : countTO ((fuzzer_run cfg rc env st).2).log
        ≤ toInv (fuzzer_run cfg rc env st).2 := by
      unfold toInv
      split_ifs <;> omega
    rw [hrinv] at hle
    unfold toInv at hle
    rw [h2, h1] at hle
    simpa using hle

/-- Witness for C5: three checks against a one-minute limit with the clock
two minutes past the start log the message exactly once. -/
def w5Rc : RuntimeCfg := { scnRc with time := some 1 }

def w5St : St := { mkInitSt scnCfg with scan_start_time := some 0 }

def w5Env : Env := { scnEnv with clock := fun _ => 120 }

theorem global_timeout_logged_once_witness :
    tripsIn w5Env 1 0 w5St.clk 3 = true ∧
    countTO (globalChecks w5Rc w5Env 3 w5St).log
      = countTO w5St.log + (if tripsIn w5Env 1 0 w5St.clk 3 then 1 else 0) ∧
    (globalChecks w5Rc w5Env 3 w5St).stop_event
      = tripsIn w5Env 1 0 w5St.clk 3 :=
  ⟨by
    unfold tripsIn w5Env w5St scnEnv
    simp [List.range_succ, mkInitSt]
    norm_num,
    ((global_timeout_logged_once scnCfg w5Rc w5Env).1 1 0 3 w5St rfl rfl rfl
      rfl).1,
    ((global_timeout_logged_once scnCfg w5Rc w5Env).1 1 0 3 w5St rfl rfl rfl
      rfl).2⟩

/-! ### C6: a per-target timeout never cancels the whole run -/

/-- With no global limit configured and the stop event clear, the global
check reads the clock and answers `False` without any other effect. -/
lemma is_timeout_global_none (rc : RuntimeCfg) (env : Env) (st : St)
    (hrc : rc.time = none) (h2 : st.stop_event = false) :
    is_timeout_global rc env st = (false, { st with clk := st.clk + 1 }) := by
  unfold is_timeout_global readClock
  dsimp only
  rw [if_neg (by simp [h2]), hrc]

lemma is_timeout_global_ntstop (rc : RuntimeCfg) (env : Env) (st : St)
    (hrc : rc.time = none) :
    (is_timeout_global rc env st).2.stop_event = st.stop_event := by
  cases h2 : st.stop_event
  · rw [is_timeout_global_none rc env st hrc h2]
    exact h2
  · rw [is_timeout_global_stopped rc env st h2]
    exact h2

lemma is_timeout_ntstop (rc : RuntimeCfg) (env : Env) (st : St)
    (hrc : rc.time = none) :
    (is_timeout rc env st).2.stop_event = st.stop_event := by
  unfold is_timeout
  dsimp only
  split_ifs
  · exact is_timeout_global_ntstop rc env st hrc
  · rw [is_per_url_timeout_stop]
    exact is_timeout_global_ntstop rc env st hrc

lemma seqHeaderLoop_ntstop (cfg : StaticCfg) (rc : RuntimeCfg) (env : Env)
    (url method : String) (total : Nat) (t0 : ℚ) (hs : List Header)
    (hrc : rc.time = none) :
    ∀ s : SeqLoop, (seqHeaderLoop cfg rc env url method total t0 hs
      s).st.stop_event = s.st.stop_event := by
  induction hs with
  | nil => intro s; rfl
  | cons h rest ih =>
    intro s
    unfold seqHeaderLoop
    dsimp only
    split_ifs
    · exact is_timeout_ntstop rc env s.st hrc
    · rw [seqReqStep_stop]
      exact is_timeout_ntstop rc env s.st hrc
    · rw [ih, seqReqStep_stop]
      exact is_timeout_ntstop rc env s.st hrc

lemma seqMethodLoop_ntstop (cfg : StaticCfg) (rc : RuntimeCfg) (env : Env)
    (url : String) (total : Nat) (t0 : ℚ) (ms : List String)
    (hrc : rc.time = none) :
    ∀ s : SeqLoop, (seqMethodLoop cfg rc env url total t0 ms
      s).st.stop_event = s.st.stop_event := by
  induction ms with
  | nil => intro s; rfl
  | cons m rest ih =>
    intro s
    unfold seqMethodLoop
    dsimp only
    split_ifs
    · exact is_timeout_ntstop rc env s.st hrc
    · rw [seqHeaderLoop_ntstop cfg rc env url m total t0 _ hrc]
      exact is_timeout_ntstop rc env s.st hrc
    · rw [ih, seqHeaderLoop_ntstop cfg rc env url m total t0 _ hrc]
      exact is_timeout_ntstop rc env s.st hrc

lemma seqUrlLoop_ntstop (cfg : StaticCfg) (rc : RuntimeCfg) (env : Env)
    (total : Nat) (t0 : ℚ) (urls : List String) (hrc : rc.time = none) :
    ∀ s : SeqLoop, (seqUrlLoop cfg rc env total t0 urls s).st.stop_event
      = s.st.stop_event := by
  induction urls with
  | nil => intro s; rfl
  | cons u rest ih =>
    intro s
    unfold seqUrlLoop
    dsimp only
    split_ifs
    · exact is_timeout_ntstop rc env s.st hrc
    · rw [seqMethodLoop_ntstop cfg rc env u total t0 _ hrc]
      exact is_timeout_ntstop rc env s.st hrc
    · rw [ih, seqMethodLoop_ntstop cfg rc env u total t0 _ hrc]
      exact is_timeout_ntstop rc env s.st hrc

lemma run_fuzz_threading_ntstop (cfg : StaticCfg) (rc : RuntimeCfg)
    (env : Env) (urls : List String) (st : St) (hrc : rc.time = none) :
    (run_fuzz_threading cfg rc env urls st).2.stop_event = st.stop_event := by
  unfold run_fuzz_threading run_sequential
  dsimp only
  split_ifs
  · rw [seqUrlLoop_ntstop cfg rc env _ _ urls hrc]
    simp
  · rfl

lemma process_batches_ntstop (cfg : StaticCfg) (rc : RuntimeCfg) (env : Env)
    (batches : List (List String)) (hrc : rc.time = none) :
    ∀ (acc : List String) (st : St),
      (process_batches cfg rc env batches acc st).2.stop_event
        = st.stop_event := by
  induction batches with
  | nil => intro acc st; rfl
  | cons batch rest ih =>
    intro acc st
    unfold process_batches
    dsimp only
    split_ifs
    · exact is_timeout_global_ntstop rc env st hrc
    · rw [logInfo_stop, is_per_url_timeout_stop]
      exact is_timeout_global_ntstop rc env st hrc
    · rw [ih, is_per_url_timeout_stop]
      exact is_timeout_global_ntstop rc env st hrc
    · rw [ih, run_fuzz_threading_ntstop cfg rc env _ _ hrc,
        is_per_url_timeout_stop]
      exact is_timeout_global_ntstop rc env st hrc

lemma process_paths_ntstop (cfg : StaticCfg) (rc : RuntimeCfg) (env : Env)
    (st : St) (hrc : rc.time = none) :
    (process_paths_for_base_url cfg rc env st).2.stop_event
      = st.stop_event :=
  process_batches_ntstop cfg rc env _ hrc _ st

lemma url_loop_ntstop (cfg : StaticCfg) (rc : RuntimeCfg) (env : Env)
    (total : Nat) (targets : List String) (hrc : rc.time = none) :
    ∀ (idx : Nat) (acc : List String) (st : St),
      (url_loop cfg rc env total idx targets acc st).2.stop_event
        = st.stop_event := by
  induction targets with
  | nil => intro idx acc st; rfl
  | cons t rest ih =>
    intro idx acc st
    unfold url_loop
    dsimp only
    split_ifs
    · simp only [logInfo_stop]
      rw [is_timeout_global_ntstop rc env _ hrc]
      simp only [logInfo_stop]
    · rw [ih]
      dsimp only
      simp only [logInfo_stop]
      rw [process_paths_ntstop cfg rc env _ hrc]
      dsimp only
      simp only [readClock_stop]
      rw [is_timeout_global_ntstop rc env _ hrc]
      simp only [logInfo_stop]
    · rw [ih]
      dsimp only
      simp only [logInfo_stop]
      rw [run_fuzz_threading_ntstop cfg rc env _ _ hrc]
      dsimp only
      simp only [readClock_stop]
      rw [is_timeout_global_ntstop rc env _ hrc]
      simp only [logInfo_stop]

/-- Under no global limit and a clear stop event, one multi-target loop
iteration factors through the singleton loop on its head target. -/
lemma url_loop_cons_eq (cfg : StaticCfg) (rc : RuntimeCfg) (env : Env)
    (total idx : Nat) (t : String) (rest acc : List String) (st : St)
    (hrc : rc.time = none) (h2 : st.stop_event = false) :
    url_loop cfg rc env total idx (t :: rest) acc st
      = url_loop cfg rc env total (idx + 1) rest
          (acc ++ (url_loop cfg rc env total idx [t] [] st).1)
          (url_loop cfg rc env total idx [t] [] st).2 := by
  have hg := is_timeout_global_none rc env
    (logInfo ("Starting URL " ++ toString idx ++ "/" ++ toString total
      ++ ": " ++ t) st) hrc (by simp [h2])
  simp only [url_loop]
  rw [hg]
  dsimp only
  simp only [Bool.false_eq_true, reduceIte, List.nil_append]

/-- C6: a per-target timeout expiring never sets the global cancellation
flag — the per-URL check touches nothing but the clock cursor, the
batch-loop path with no global limit leaves the stop event clear even when
the per-URL deadline fires mid-batch, and the multi-target loop under no
global limit decomposes: after the targets in `xs` (however their
per-target deadlines truncated them), every target in `ys` is still
processed, and the whole loop ends with the stop event still clear. -/
theorem per_target_timeout_isolated (cfg : StaticCfg) (rc : RuntimeCfg)
    (env : Env) (hrc : rc.time = none) :
    (∀ st : St, (is_per_url_timeout rc env st).2.stop_event = st.stop_event
      ∧ (is_per_url_timeout rc env st).2.time_hit_logged
          = st.time_hit_logged
      ∧ (is_per_url_timeout rc env st).2.log = st.log) ∧
    (∀ st : St, st.stop_event = false →
      (process_paths_for_base_url cfg rc env st).2.stop_event = false) ∧
    (∀ (total idx : Nat) (xs ys acc : List String) (st : St),
      st.stop_event = false →
      url_loop cfg rc env total idx (xs ++ ys) acc st
        = url_loop cfg rc env total (idx + xs.length) ys
            (url_loop cfg rc env total idx xs acc st).1
            (url_loop cfg rc env total idx xs acc st).2) ∧
    (∀ (total idx : Nat) (targets acc : List String) (st : St),
      st.stop_event = false →
      (url_loop cfg rc env total idx targets acc st).2.stop_event
        = false) := by
  refine ⟨?_, ?_, ?_, ?_⟩
  · intro st
    obtain ⟨d, h⟩ := is_per_url_timeout_frame rc env st
    rw [h]
    exact ⟨rfl, rfl, rfl⟩
  · intro st h2
    rw [process_paths_ntstop cfg rc env st hrc, h2]
  · intro total idx xs
    induction xs generalizing idx with
    | nil =>
      intro ys acc st h2
      simp [url_loop]
    | cons t rest ih =>
      intro ys acc st h2
      have hB : (url_loop cfg rc env total idx [t] [] st).2.stop_event
          = false := by
        rw [url_loop_ntstop cfg rc env total [t] hrc idx [] st, h2]
      calc url_loop cfg rc env total idx ((t :: rest) ++ ys) acc st
          = url_loop cfg rc env total (idx + 1) (rest ++ ys)
              (acc ++ (url_loop cfg rc env total idx [t] [] st).1)
              (url_loop cfg rc env total idx [t] [] st).2 :=
            url_loop_cons_eq cfg rc env total idx t (rest ++ ys) acc st hrc h2
        _ = url_loop cfg rc env total (idx + 1 + rest.length) ys
              (url_loop cfg rc env total (idx + 1) rest
                (acc ++ (url_loop cfg rc env total idx [t] [] st).1)
                (url_loop cfg rc env total idx [t] [] st).2).1
              (url_loop cfg rc env total (idx + 1) rest
                (acc ++ (url_loop cfg rc env total idx [t] [] st).1)
                (url_loop cfg rc env total idx [t] [] st).2).2 :=
            ih (idx + 1) ys _ _ hB
        _ = url_loop cfg rc env total (idx + (t :: rest).length) ys
              (url_loop cfg rc env total idx (t :: rest) acc st).1
              (url_loop cfg rc env total idx (t :: rest) acc st).2 := by
            rw [url_loop_cons_eq cfg rc env total idx t rest acc st hrc h2]
            simp only [List.length_cons]
            rw [show idx + 1 + rest.length = idx + (rest.length + 1) from
              by omega]
  · intro total idx targets acc st h2
    rw [url_loop_ntstop cfg rc env total targets hrc idx acc st, h2]

/-- Witness for C6: two concrete targets with a per-target limit of 0
seconds and no global limit — the loop still decomposes into processing
both targets and ends unstopped. -/
def w6Rc : RuntimeCfg :=
  { scnRc with per_url_time_limit := some 0, time := none }

theorem per_target_timeout_isolated_witness :
    w6Rc.time = none ∧ (mkInitSt scnCfg).stop_event = false ∧
    url_loop scnCfg w6Rc scnEnv 2 1 (["http://a"] ++ ["http://b"]) []
        (mkInitSt scnCfg)
      = url_loop scnCfg w6Rc scnEnv 2 (1 + ["http://a"].length) ["http://b"]
          (url_loop scnCfg w6Rc scnEnv 2 1 ["http://a"] [] (mkInitSt scnCfg)).1
          (url_loop scnCfg w6Rc scnEnv 2 1 ["http://a"] [] (mkInitSt scnCfg)).2
      ∧ (url_loop scnCfg w6Rc scnEnv 2 1 ["http://a", "http://b"] []
          (mkInitSt scnCfg)).2.stop_event = false :=
  ⟨rfl, rfl,
    (per_target_timeout_isolated scnCfg w6Rc scnEnv rfl).2.2.1 2 1
      ["http://a"] ["http://b"] [] (mkInitSt scnCfg) rfl,
    (per_target_timeout_isolated scnCfg w6Rc scnEnv rfl).2.2.2 2 1
      ["http://a", "http://b"] [] (mkInitSt scnCfg) rfl⟩

/-! ### C9: who writes the output file -/

/-- `_display_configuration` only logs; it records no file write. -/
@[simp] lemma display_configuration_files (cfg : StaticCfg) (rc : RuntimeCfg)
    (st : St) : (display_configuration cfg rc st).files = st.files := rfl

/-- The multi-target loop records no file write. -/
lemma url_loop_files (cfg : StaticCfg) (rc : RuntimeCfg) (env : Env)
    (total : Nat) (targets : List String) :
    ∀ (idx : Nat) (acc : List String) (st : St),
      (url_loop cfg rc env total idx targets acc st).2.files = st.files := by
  induction targets with
  | nil => intro idx acc st; rfl
  | cons t rest ih =>
    intro idx acc st
    unfold url_loop
    dsimp only
    split_ifs
    · simp only [logInfo_files]
      rw [is_timeout_global_files]
      simp only [logInfo_files]
    · rw [ih]
      dsimp only
      simp only [logInfo_files]
      rw [(process_paths_dframe cfg rc env _).2.2.2]
      dsimp only
      simp only [readClock_files]
      rw [is_timeout_global_files]
      simp only [logInfo_files]
    · rw [ih]
      dsimp only
      simp only [logInfo_files]
      rw [(run_fuzz_threading_dframe cfg rc env _ _).2.2.2]
      dsimp only
      simp only [readClock_files]
      rw [is_timeout_global_files]
      simp only [logInfo_files]

lemma process_url_list_files (cfg : StaticCfg) (rc : RuntimeCfg) (env : Env)
    (st : St) : (process_url_list cfg rc env st).2.files = st.files :=
  url_loop_files cfg rc env _ _ _ _ st

lemma process_paths_files (cfg : StaticCfg) (rc : RuntimeCfg) (env : Env)
    (st : St) : (process_paths_for_base_url cfg rc env st).2.files
      = st.files :=
  (process_paths_dframe cfg rc env st).2.2.2

/-- A runtime configuration with an output file configured, used to show
the run path itself records a file write. -/
def cexRc9 : RuntimeCfg := { scnRc with output_file := some "out.txt" }

/-- C9 counterexample: starting from a state with no file writes, a full
run with an output file configured ends with the core itself having
written that file — `run` ends in `_finalize_results`, which opens the
output file and writes the filtered records directly rather than leaving
writing to external collaborators. -/
theorem core_run_writes_file_cex :
    (mkInitSt scnCfg).files = [] ∧
    cexRc9.output_file = some "out.txt" ∧
    (fuzzer_run scnCfg cexRc9 scnEnv (mkInitSt scnCfg)).2.files.map Prod.fst
      = ["out.txt"] := by
  refine ⟨rfl, rfl, ?_⟩
  decide

/-- C9 (amended): the core returns the collected result list unfiltered,
and the phases of the run before finalization write no files; but the
writing of the filtered results to the output file is performed by the
core's own finalization step (`_finalize_results`, called by `run`): it
appends exactly one file — the configured output file holding the
filtered records — when an output file is configured (Python truthiness)
and the filtered list is nonempty, and no file otherwise. -/
theorem finalize_writes_output_file (cfg : StaticCfg) (rc : RuntimeCfg)
    (env : Env) (results : List String) (st : St) :
    (finalize_results cfg rc results st).1 = results ∧
    (finalize_results cfg rc results st).2.files
      = st.files ++
        (if pyTruthyStr rc.output_file ∧ finalFiltered rc results ≠ []
          then [(rc.output_file.getD "", finalFiltered rc results)]
          else []) ∧
    (process_url_list cfg rc env st).2.files = st.files ∧
    (process_paths_for_base_url cfg rc env st).2.files = st.files ∧
    (fuzzer_run cfg rc env st).2.files
      = st.files ++
        (if pyTruthyStr rc.output_file
            ∧ finalFiltered rc (fuzzer_run cfg rc env st).1 ≠ []
          then [(rc.output_file.getD "",
                  finalFiltered rc (fuzzer_run cfg rc env st).1)]
          else []) := by
  have key : ∀ (res : List String) (s : St),
      (finalize_results cfg rc res s).1 = res ∧
      (finalize_results cfg rc res s).2.files
        = s.files ++
          (if pyTruthyStr rc.output_file ∧ finalFiltered rc res ≠ []
            then [(rc.output_file.getD "", finalFiltered rc res)]
            else []) := by
    intro res s
    constructor
    · rfl
    · unfold finalize_results
      dsimp only
      repeat' split
      all_goals simp_all
  refine ⟨(key results st).1, (key results st).2, process_url_list_files
    cfg rc env st, process_paths_files cfg rc env st, ?_⟩
  unfold fuzzer_run
  dsimp only
  rw [(key _ _).1, (key _ _).2]
  split_ifs <;> simp [process_url_list_files, process_paths_files]

/-! ### C10: a per-target limit is inert in single-base-URL mode -/

/-- With the per-URL start time unset, the per-URL check is a complete
no-op whatever the configured limit: `False` and an untouched state (not
even a clock read). -/
lemma is_per_url_timeout_unset (rc : RuntimeCfg) (env : Env) (st : St)
    (h : st.current_url_start_time = none) :
    is_per_url_timeout rc env st = (false, st) := by
  unfold is_per_url_timeout
  rw [h]
  cases rc.per_url_time_limit <;> rfl

/-- The functions below never read `per_url_time_limit`, so changing it is
invisible to them (all definitional). -/
lemma get_methods_perurl (cfg : StaticCfg) (rc : RuntimeCfg) (t : Option ℚ) :
    get_methods cfg { rc with per_url_time_limit := t } = get_methods cfg rc :=
  rfl

lemma get_headers_perurl (cfg : StaticCfg) (rc : RuntimeCfg) (t : Option ℚ) :
    get_headers cfg { rc with per_url_time_limit := t } = get_headers cfg rc :=
  rfl

lemma is_timeout_global_perurl (rc : RuntimeCfg) (t : Option ℚ) (env : Env)
    (st : St) :
    is_timeout_global { rc with per_url_time_limit := t } env st
      = is_timeout_global rc env st := rfl

lemma seqReqStep_perurl (cfg : StaticCfg) (rc : RuntimeCfg) (t : Option ℚ)
    (env : Env) (url method : String) (total : Nat) (t0 : ℚ) (h : Header)
    (s : SeqLoop) :
    seqReqStep cfg { rc with per_url_time_limit := t } env url method total
        t0 h s
      = seqReqStep cfg rc env url method total t0 h s := rfl

/-- `_is_timeout` ignores the configured per-URL limit whenever the
per-URL start time is unset. -/
lemma is_timeout_perurl (rc : RuntimeCfg) (t : Option ℚ) (env : Env)
    (st : St) (h : st.current_url_start_time = none) :
    is_timeout { rc with per_url_time_limit := t } env st
      = is_timeout rc env st := by
  unfold is_timeout
  dsimp only
  rw [is_timeout_global_perurl rc t env st]
  split_ifs
  · rfl
  · rw [is_per_url_timeout_unset _ env _ (by simp [h]),
      is_per_url_timeout_unset rc env _ (by simp [h])]

lemma seqHeaderLoop_perurl (cfg : StaticCfg) (rc : RuntimeCfg) (t : Option ℚ)
    (env : Env) (url method : String) (total : Nat) (t0 : ℚ) :
    ∀ (hs : List Header) (s : SeqLoop),
      s.st.current_url_start_time = none →
      seqHeaderLoop cfg { rc with per_url_time_limit := t } env url method
          total t0 hs s
        = seqHeaderLoop cfg rc env url method total t0 hs s := by
  intro hs
  induction hs with
  | nil => intro s _; rfl
  | cons h rest ih =>
    intro s hcur
    unfold seqHeaderLoop
    dsimp only
    rw [is_timeout_perurl rc t env s.st hcur,
      seqReqStep_perurl cfg rc t env url method total t0 h]
    split_ifs
    · rfl
    · rfl
    · exact ih _ (by simp [hcur])

lemma seqMethodLoop_perurl (cfg : StaticCfg) (rc : RuntimeCfg) (t : Option ℚ)
    (env : Env) (url : String) (total : Nat) (t0 : ℚ) :
    ∀ (ms : List String) (s : SeqLoop),
      s.st.current_url_start_time = none →
      seqMethodLoop cfg { rc with per_url_time_limit := t } env url total t0
          ms s
        = seqMethodLoop cfg rc env url total t0 ms s := by
  intro ms
  induction ms with
  | nil => intro s _; rfl
  | cons m rest ih =>
    intro s hcur
    unfold seqMethodLoop
    dsimp only
    rw [is_timeout_perurl rc t env s.st hcur, get_headers_perurl cfg rc t,
      seqHeaderLoop_perurl cfg rc t env url m total t0 (get_headers cfg rc)
        _ (by simp [hcur])]
    split_ifs
    · rfl
    · rfl
    · refine ih _ ?_
      rw [(seqHeaderLoop_dframe cfg rc env url m total t0 _ _).2.1]
      simp [hcur]

lemma seqUrlLoop_perurl (cfg : StaticCfg) (rc : RuntimeCfg) (t : Option ℚ)
    (env : Env) (total : Nat) (t0 : ℚ) :
    ∀ (urls : List String) (s : SeqLoop),
      s.st.current_url_start_time = none →
      seqUrlLoop cfg { rc with per_url_time_limit := t } env total t0 urls s
        = seqUrlLoop cfg rc env total t0 urls s := by
  intro urls
  induction urls with
  | nil => intro s _; rfl
  | cons u rest ih =>
    intro s hcur
    unfold seqUrlLoop
    dsimp only
    rw [is_timeout_perurl rc t env s.st hcur, get_methods_perurl cfg rc t,
      seqMethodLoop_perurl cfg rc t env u total t0 (get_methods cfg rc)
        _ (by simp [hcur])]
    split_ifs
    · rfl
    · rfl
    · refine ih _ ?_
      rw [(seqMethodLoop_dframe cfg rc env u total t0 _ _).2.1]
      simp [hcur]

lemma run_sequential_perurl (cfg : StaticCfg) (rc : RuntimeCfg) (t : Option ℚ)
    (env : Env) (urls : List String) (st : St)
    (h : st.current_url_start_time = none) :
    run_sequential cfg { rc with per_url_time_limit := t } env urls st
      = run_sequential cfg rc env urls st := by
  unfold run_sequential
  dsimp only
  rw [get_methods_perurl cfg rc t, get_headers_perurl cfg rc t,
    seqUrlLoop_perurl cfg rc t env _ _ urls _ (by simp [h])]

lemma run_fuzz_threading_perurl (cfg : StaticCfg) (rc : RuntimeCfg)
    (t : Option ℚ) (env : Env) (urls : List String) (st : St)
    (h : st.current_url_start_time = none) :
    run_fuzz_threading cfg { rc with per_url_time_limit := t } env urls st
      = run_fuzz_threading cfg rc env urls st := by
  unfold run_fuzz_threading
  dsimp only
  split_ifs
  · exact run_sequential_perurl cfg rc t env urls _ (by simp [h])
  · rfl

lemma process_batches_perurl (cfg : StaticCfg) (rc : RuntimeCfg)
    (t : Option ℚ) (env : Env) :
    ∀ (batches : List (List String)) (acc : List String) (st : St),
      st.current_url_start_time = none →
      process_batches cfg { rc with per_url_time_limit := t } env batches
          acc st
        = process_batches cfg rc env batches acc st := by
  intro batches
  induction batches with
  | nil => intro acc st _; rfl
  | cons batch rest ih =>
    intro acc st h
    unfold process_batches
    dsimp only
    rw [is_timeout_global_perurl rc t env st,
      is_per_url_timeout_unset _ env _ (by simp [h]),
      is_per_url_timeout_unset rc env _ (by simp [h])]
    dsimp only
    simp only [Bool.false_eq_true, reduceIte]
    rw [run_fuzz_threading_perurl cfg rc t env _ _ (by simp [h])]
    split_ifs
    · rfl
    · exact ih acc _ (by simp [h])
    · refine ih _ _ ?_
      rw [(run_fuzz_threading_dframe cfg rc env _ _).2.1]
      simp [h]

lemma process_paths_perurl (cfg : StaticCfg) (rc : RuntimeCfg) (t : Option ℚ)
    (env : Env) (st : St) (h : st.current_url_start_time = none) :
    process_paths_for_base_url cfg { rc with per_url_time_limit := t } env st
      = process_paths_for_base_url cfg rc env st := by
  unfold process_paths_for_base_url
  exact process_batches_perurl cfg rc t env _ [] st h

/-- `_finalize_results` never touches the per-URL start time. -/
lemma finalize_results_curr (cfg : StaticCfg) (rc : RuntimeCfg)
    (results : List String) (st : St) :
    (finalize_results cfg rc results st).2.current_url_start_time
      = st.current_url_start_time := by
  unfold finalize_results
  dsimp only
  repeat' split
  all_goals simp_all

/-- C10: in single-base-URL mode a configured per-target time limit has no
effect — the per-URL check is a no-op whenever the per-URL start time is
unset; the start time is unset initially; the single-base-URL work path
(`_process_paths_for_base_url`) computes exactly the same results and
state whatever per-URL limit is configured, as long as the start time is
unset; and a whole run with no URL-list file ends with the start time
still unset (it is only ever set inside the multi-target loop). -/
theorem per_url_limit_inert_single_mode (cfg : StaticCfg) (rc : RuntimeCfg)
    (env : Env) :
    (∀ st : St, st.current_url_start_time = none →
      is_per_url_timeout rc env st = (false, st)) ∧
    (mkInitSt cfg).current_url_start_time = none ∧
    (∀ (t : Option ℚ) (st : St), st.current_url_start_time = none →
      process_paths_for_base_url cfg { rc with per_url_time_limit := t }
          env st
        = process_paths_for_base_url cfg { rc with per_url_time_limit := none }
            env st) ∧
    (∀ st : St, cfg.url_file = [] → st.current_url_start_time = none →
      (fuzzer_run cfg rc env st).2.current_url_start_time = none) := by
  refine ⟨fun st h => is_per_url_timeout_unset rc env st h, rfl, ?_, ?_⟩
  · intro t st h
    rw [process_paths_perurl cfg rc t env st h,
      process_paths_perurl cfg rc none env st h]
  · intro st hurl hcur
    unfold fuzzer_run
    dsimp only
    rw [finalize_results_curr, if_neg (by simp [hurl])]
    split_ifs
    · rw [(process_paths_dframe cfg rc env _).2.1]
      simp [display_configuration, hcur]
    · simp [display_configuration, hcur]

/-- Witness for C10: in the spec scenario (single base URL, a path file,
no URL-list file), a per-target limit of 0 seconds changes nothing, and
the run ends with the per-URL start time still unset. -/
theorem per_url_limit_inert_single_mode_witness :
    process_paths_for_base_url scnCfg
        { scnRc with per_url_time_limit := some 0 } scnEnv (mkInitSt scnCfg)
      = process_paths_for_base_url scnCfg
          { scnRc with per_url_time_limit := none } scnEnv (mkInitSt scnCfg)
    ∧ (fuzzer_run scnCfg scnRc scnEnv
        (mkInitSt scnCfg)).2.current_url_start_time = none :=
  ⟨(per_url_limit_inert_single_mode scnCfg scnRc scnEnv).2.2.1 (some 0)
      (mkInitSt scnCfg) rfl,
    (per_url_limit_inert_single_mode scnCfg scnRc scnEnv).2.2.2
      (mkInitSt scnCfg) rfl rfl⟩

/-! ### C1: the result cap is per dispatch call, not per run -/

/-- `_finalize_results` returns its input list unchanged. -/
lemma finalize_results_fst (cfg : StaticCfg) (rc : RuntimeCfg)
    (results : List String) (st : St) :
    (finalize_results cfg rc results st).1 = results := rfl

lemma str_append_ne_of_right (a b : String) (hb : b.length ≠ 0) :
    a ++ b ≠ "" := by
  intro h
  have hl := congrArg String.length h
  rw [String.length_append] at hl
  simp at hl
  exact hb hl.2

/-- Every branch of `_make_single_request` produces a nonempty record. -/
lemma make_single_request_fst_ne (cfg : StaticCfg) (rc : RuntimeCfg)
    (env : Env) (url method : String) (headers : Header) (thr : Bool)
    (st : St) :
    (make_single_request cfg rc env url method headers thr st).1 ≠ "" := by
  unfold make_single_request
  dsimp only
  split
  · exact str_append_ne_of_right _ _ (by decide)
  · exact str_append_ne_of_right _ _ (by decide)
  · exact str_append_ne_of_right _ _ (by decide)
  · exact str_append_ne_of_right _ _ (by decide)

/-- With no global limit, the stop event clear and the per-URL start time
unset, `_is_timeout` reads the clock once and answers `False`. -/
lemma is_timeout_false (rc : RuntimeCfg) (env : Env) (st : St)
    (hrc : rc.time = none) (hstop : st.stop_event = false)
    (hcur : st.current_url_start_time = none) :
    is_timeout rc env st = (false, { st with clk := st.clk + 1 }) := by
  unfold is_timeout
  dsimp only
  rw [is_timeout_global_none rc env st hrc hstop]
  dsimp only
  simp only [Bool.false_eq_true, reduceIte]
  exact is_per_url_timeout_unset rc env _ (by simp [hcur])

/-- One `seqReqStep` always collects exactly one result. -/
lemma seqReqStep_len (cfg : StaticCfg) (rc : RuntimeCfg) (env : Env)
    (url method : String) (total : Nat) (t0 : ℚ) (h : Header) (s : SeqLoop) :
    (seqReqStep cfg rc env url method total t0 h s).acc.length
      = s.acc.length + 1 := by
  unfold seqReqStep
  dsimp only
  rw [if_pos (make_single_request_fst_ne cfg rc env url method h false _)]
  split_ifs <;> simp

/-- The `return`-taken flag after one `seqReqStep`: set exactly when the
grown accumulator reaches the cap (or it was already set). -/
lemma seqReqStep_done (cfg : StaticCfg) (rc : RuntimeCfg) (env : Env)
    (url method : String) (total : Nat) (t0 : ℚ) (h : Header) (s : SeqLoop) :
    (seqReqStep cfg rc env url method total t0 h s).done
      = (if MAX_RESULT ≤ s.acc.length + 1 then true else s.done) := by
  unfold seqReqStep
  dsimp only
  rw [if_pos (make_single_request_fst_ne cfg rc env url method h false _)]
  split_ifs <;> simp_all

/-- Exact accounting for the innermost sequential loop under no global
limit: each header yields one record until the cap is hit, the `return`
flag is set exactly when the cap is reached, and neither the stop event
nor the per-URL start time is touched. -/
lemma seqHeaderLoop_len (cfg : StaticCfg) (rc : RuntimeCfg) (env : Env)
    (url method : String) (total : Nat) (t0 : ℚ) (hrc : rc.time = none) :
    ∀ (hs : List Header) (s : SeqLoop),
      s.st.stop_event = false → s.st.current_url_start_time = none →
      s.done = false → s.acc.length < MAX_RESULT →
      (seqHeaderLoop cfg rc env url method total t0 hs s).acc.length
          = min (s.acc.length + hs.length) MAX_RESULT ∧
      (seqHeaderLoop cfg rc env url method total t0 hs s).done
          = decide (MAX_RESULT ≤ s.acc.length + hs.length) ∧
      (seqHeaderLoop cfg rc env url method total t0 hs s).st.stop_event
          = false ∧
      (seqHeaderLoop cfg rc env url method total t0
          hs s).st.current_url_start_time = none := by
  intro hs
  induction hs with
  | nil =>
    intro s h1 h2 h3 h4
    refine ⟨?_, ?_, h1, h2⟩
    · rw [show (seqHeaderLoop cfg rc env url method total t0 [] s).acc
        = s.acc from rfl]
      simp only [List.length_nil]
      omega
    rw [show (seqHeaderLoop cfg rc env url method total t0 [] s).done
      = s.done from rfl, h3]
    symm
    rw [decide_eq_false_iff_not]
    simp
    omega
  | cons h rest ih =>
    intro s h1 h2 h3 h4
    unfold seqHeaderLoop
    dsimp only
    rw [is_timeout_false rc env s.st hrc h1 h2]
    dsimp only
    simp only [Bool.false_eq_true, reduceIte]
    set S1 : SeqLoop := seqReqStep cfg rc env url method total t0 h
      { s with st := { s.st with clk := s.st.clk + 1 } } with hS1
    have hA : S1.acc.length = s.acc.length + 1 := by
      rw [hS1, seqReqStep_len]
    by_cases hM : MAX_RESULT ≤ s.acc.length + 1
    · have hD : S1.done = true := by
        rw [hS1, seqReqStep_done]
        exact if_pos hM
      rw [if_pos hD]
      refine ⟨?_, ?_, ?_, ?_⟩
      · rw [hA]
        simp only [List.length_cons]
        omega
      · rw [hD]
        symm
        rw [decide_eq_true_eq]
        simp only [List.length_cons]
        omega
      · rw [hS1]
        simp [h1]
      · rw [hS1]
        simp [h2]
    · have hD : S1.done = false := by
        rw [hS1, seqReqStep_done, if_neg hM]
        exact h3
      rw [if_neg (by rw [hD]; exact Bool.false_ne_true)]
      have hrest := ih S1 (by rw [hS1]; simp [h1]) (by rw [hS1]; simp [h2])
        hD (by rw [hA]; omega)
      refine ⟨?_, ?_, hrest.2.2.1, hrest.2.2.2⟩
      · rw [hrest.1, hA]
        simp only [List.length_cons]
        omega
      · rw [hrest.2.1, hA]
        simp only [List.length_cons, decide_eq_decide]
        omega

/-- Exact accounting for the method loop: each method contributes one
record per resolved header until the cap is hit. -/
lemma seqMethodLoop_len (cfg : StaticCfg) (rc : RuntimeCfg) (env : Env)
    (url : String) (total : Nat) (t0 : ℚ) (hrc : rc.time = none) :
    ∀ (ms : List String) (s : SeqLoop),
      s.st.stop_event = false → s.st.current_url_start_time = none →
      s.done = false → s.acc.length < MAX_RESULT →
      (seqMethodLoop cfg rc env url total t0 ms s).acc.length
          = min (s.acc.length + ms.length * (get_headers cfg rc).length)
              MAX_RESULT ∧
      (seqMethodLoop cfg rc env url total t0 ms s).done
          = decide (MAX_RESULT
              ≤ s.acc.length + ms.length * (get_headers cfg rc).length) ∧
      (seqMethodLoop cfg rc env url total t0 ms s).st.stop_event = false ∧
      (seqMethodLoop cfg rc env url total t0
          ms s).st.current_url_start_time = none := by
  intro ms
  induction ms with
  | nil =>
    intro s h1 h2 h3 h4
    refine ⟨?_, ?_, h1, h2⟩
    · rw [show (seqMethodLoop cfg rc env url total t0 [] s).acc
        = s.acc from rfl]
      simp only [List.length_nil, Nat.zero_mul]
      omega
    rw [show (seqMethodLoop cfg rc env url total t0 [] s).done
      = s.done from rfl, h3]
    symm
    rw [decide_eq_false_iff_not]
    simp only [List.length_nil, Nat.zero_mul]
    omega
  | cons m rest ih =>
    intro s h1 h2 h3 h4
    unfold seqMethodLoop
    dsimp only
    rw [is_timeout_false rc env s.st hrc h1 h2]
    dsimp only
    simp only [Bool.false_eq_true, reduceIte]
    set S1 : SeqLoop := seqHeaderLoop cfg rc env url m total t0
      (get_headers cfg rc) { s with st := { s.st with clk := s.st.clk + 1 } }
      with hS1
    have hinner := seqHeaderLoop_len cfg rc env url m total t0 hrc
      (get_headers cfg rc)
      { s with st := { s.st with clk := s.st.clk + 1 } }
      (by simp [h1]) (by simp [h2]) h3 h4
    by_cases hM : MAX_RESULT ≤ s.acc.length + (get_headers cfg rc).length
    · have hD : S1.done = true := by
        rw [hS1, hinner.2.1, decide_eq_true_eq]
        exact hM
      rw [if_pos hD]
      refine ⟨?_, ?_, ?_, ?_⟩
      · rw [hS1, hinner.1]
        simp only [List.length_cons, Nat.succ_mul]
        omega
      · rw [hD]
        symm
        rw [decide_eq_true_eq]
        simp only [List.length_cons, Nat.succ_mul]
        omega
      · rw [hS1]
        exact hinner.2.2.1
      · rw [hS1]
        exact hinner.2.2.2
    · have hD : S1.done = false := by
        rw [hS1, hinner.2.1, decide_eq_false_iff_not]
        exact hM
      rw [if_neg (by rw [hD]; exact Bool.false_ne_true)]
      have hA : S1.acc.length
          = s.acc.length + (get_headers cfg rc).length := by
        rw [hS1, hinner.1]
        dsimp only
        omega
      have hrest := ih S1 (by rw [hS1]; exact hinner.2.2.1)
        (by rw [hS1]; exact hinner.2.2.2) hD (by rw [hA]; omega)
      refine ⟨?_, ?_, hrest.2.2.1, hrest.2.2.2⟩
      · rw [hrest.1, hA]
        simp only [List.length_cons, Nat.succ_mul]
        omega
      · rw [hrest.2.1, hA]
        simp only [List.length_cons, Nat.succ_mul, decide_eq_decide]
        omega

/-- Exact accounting for the URL loop: each task URL contributes one
record per (method, header) pair until the cap is hit. -/
lemma seqUrlLoop_len (cfg : StaticCfg) (rc : RuntimeCfg) (env : Env)
    (total : Nat) (t0 : ℚ) (hrc : rc.time = none) :
    ∀ (urls : List String) (s : SeqLoop),
      s.st.stop_event = false → s.st.current_url_start_time = none →
      s.done = false → s.acc.length < MAX_RESULT →
      (seqUrlLoop cfg rc env total t0 urls s).acc.length
          = min (s.acc.length + urls.length * ((get_methods cfg rc).length
              * (get_headers cfg rc).length)) MAX_RESULT ∧
      (seqUrlLoop cfg rc env total t0 urls s).st.stop_event = false ∧
      (seqUrlLoop cfg rc env total t0 urls s).st.current_url_start_time
          = none := by
  intro urls
  induction urls with
  | nil =>
    intro s h1 h2 h3 h4
    refine ⟨?_, h1, h2⟩
    rw [show (seqUrlLoop cfg rc env total t0 [] s).acc = s.acc from rfl]
    simp only [List.length_nil, Nat.zero_mul]
    omega
  | cons u rest ih =>
    intro s h1 h2 h3 h4
    unfold seqUrlLoop
    dsimp only
    rw [is_timeout_false rc env s.st hrc h1 h2]
    dsimp only
    simp only [Bool.false_eq_true, reduceIte]
    set S1 : SeqLoop := seqMethodLoop cfg rc env u total t0
      (get_methods cfg rc) { s with st := { s.st with clk := s.st.clk + 1 } }
      with hS1
    have hinner := seqMethodLoop_len cfg rc env u total t0 hrc
      (get_methods cfg rc)
      { s with st := { s.st with clk := s.st.clk + 1 } }
      (by simp [h1]) (by simp [h2]) h3 h4
    by_cases hM : MAX_RESULT ≤ s.acc.length + (get_methods cfg rc).length
        * (get_headers cfg rc).length
    · have hD : S1.done = true := by
        rw [hS1, hinner.2.1, decide_eq_true_eq]
        exact hM
      rw [if_pos hD]
      refine ⟨?_, ?_, ?_⟩
      · rw [hS1, hinner.1]
        simp only [List.length_cons, Nat.succ_mul]
        omega
      · rw [hS1]
        exact hinner.2.2.1
      · rw [hS1]
        exact hinner.2.2.2
    · have hD : S1.done = false := by
        rw [hS1, hinner.2.1, decide_eq_false_iff_not]
        exact hM
      rw [if_neg (by rw [hD]; exact Bool.false_ne_true)]
      have hA : S1.acc.length = s.acc.length + (get_methods cfg rc).length
          * (get_headers cfg rc).length := by
        rw [hS1, hinner.1]
        dsimp only
        omega
      have hrest := ih S1 (by rw [hS1]; exact hinner.2.2.1)
        (by rw [hS1]; exact hinner.2.2.2) hD (by rw [hA]; omega)
      refine ⟨?_, hrest.2.1, hrest.2.2⟩
      rw [hrest.1, hA]
      simp only [List.length_cons, Nat.succ_mul]
      omega

/-- `_run_sequential` under no global limit returns exactly one record per
(url, method, header) task, truncated at the cap. -/
lemma run_sequential_len (cfg : StaticCfg) (rc : RuntimeCfg) (env : Env)
    (urls : List String) (st : St) (hrc : rc.time = none)
    (h1 : st.stop_event = false) (h2 : st.current_url_start_time = none) :
    (run_sequential cfg rc env urls st).1.length
        = min (urls.length * ((get_methods cfg rc).length
            * (get_headers cfg rc).length)) MAX_RESULT ∧
    (run_sequential cfg rc env urls st).2.stop_event = false ∧
    (run_sequential cfg rc env urls st).2.current_url_start_time = none := by
  unfold run_sequential readClock
  dsimp only
  have h := seqUrlLoop_len cfg rc env
    (urls.length * (get_methods cfg rc).length * (get_headers cfg rc).length)
    (env.clock st.clk) hrc urls
    { acc := [], cur := 0, st := { st with clk := st.clk + 1 }
      done := false }
    (by simp [h1]) (by simp [h2]) rfl (by norm_num [MAX_RESULT])
  dsimp only at h ⊢
  refine ⟨?_, h.2.1, h.2.2⟩
  rw [h.1]
  simp only [List.length_nil]
  omega

/-- `_run_fuzz_threading` with at most one worker delegates to the
sequential path. -/
lemma run_fuzz_threading_len (cfg : StaticCfg) (rc : RuntimeCfg) (env : Env)
    (urls : List String) (st : St) (hthr : rc.num_threads ≤ 1)
    (hrc : rc.time = none) (h1 : st.stop_event = false)
    (h2 : st.current_url_start_time = none) :
    (run_fuzz_threading cfg rc env urls st).1.length
        = min (urls.length * ((get_methods cfg rc).length
            * (get_headers cfg rc).length)) MAX_RESULT ∧
    (run_fuzz_threading cfg rc env urls st).2.stop_event = false ∧
    (run_fuzz_threading cfg rc env urls st).2.current_url_start_time
        = none := by
  unfold run_fuzz_threading
  dsimp only
  rw [if_pos hthr]
  exact run_sequential_len cfg rc env urls _ hrc (by simp [h1]) (by simp [h2])

/-- The cap bound for the innermost loop, with timeouts allowed to fire
arbitrarily: the accumulator never exceeds the cap, and while the
`return` flag is clear it stays strictly below it. -/
lemma seqHeaderLoop_le (cfg : StaticCfg) (rc : RuntimeCfg) (env : Env)
    (url method : String) (total : Nat) (t0 : ℚ) :
    ∀ (hs : List Header) (s : SeqLoop), s.done = false →
      s.acc.length < MAX_RESULT →
      (seqHeaderLoop cfg rc env url method total t0 hs s).acc.length
          ≤ MAX_RESULT ∧
      ((seqHeaderLoop cfg rc env url method total t0 hs s).done = false →
        (seqHeaderLoop cfg rc env url method total t0 hs s).acc.length
          < MAX_RESULT) := by
  intro hs
  induction hs with
  | nil => intro s h3 h4; exact ⟨le_of_lt h4, fun _ => h4⟩
  | cons h rest ih =>
    intro s h3 h4
    unfold seqHeaderLoop
    dsimp only
    have hA : (seqReqStep cfg rc env url method total t0 h
        { s with st := (is_timeout rc env s.st).2 }).acc.length
          = s.acc.length + 1 := by
      rw [seqReqStep_len]
    have hDone : (seqReqStep cfg rc env url method total t0 h
        { s with st := (is_timeout rc env s.st).2 }).done
          = (if MAX_RESULT ≤ s.acc.length + 1 then true else false) := by
      rw [seqReqStep_done]
      dsimp only
      rw [h3]
    split_ifs with ht hD
    · exact ⟨le_of_lt h4, fun _ => h4⟩
    · refine ⟨by rw [hA]; omega, fun hf => ?_⟩
      rw [hD] at hf
      cases hf
    · have hDf : (seqReqStep cfg rc env url method total t0 h
          { s with st := (is_timeout rc env s.st).2 }).done = false := by
        simp only [Bool.not_eq_true] at hD
        exact hD
      have hM : ¬ MAX_RESULT ≤ s.acc.length + 1 := by
        intro hM
        rw [hDone, if_pos hM] at hDf
        cases hDf
      exact ih _ hDf (by rw [hA]; omega)

lemma seqMethodLoop_le (cfg : StaticCfg) (rc : RuntimeCfg) (env : Env)
    (url : String) (total : Nat) (t0 : ℚ) :
    ∀ (ms : List String) (s : SeqLoop), s.done = false →
      s.acc.length < MAX_RESULT →
      (seqMethodLoop cfg rc env url total t0 ms s).acc.length
          ≤ MAX_RESULT ∧
      ((seqMethodLoop cfg rc env url total t0 ms s).done = false →
        (seqMethodLoop cfg rc env url total t0 ms s).acc.length
          < MAX_RESULT) := by
  intro ms
  induction ms with
  | nil => intro s h3 h4; exact ⟨le_of_lt h4, fun _ => h4⟩
  | cons m rest ih =>
    intro s h3 h4
    unfold seqMethodLoop
    dsimp only
    have hinner := seqHeaderLoop_le cfg rc env url m total t0
      (get_headers cfg rc) { s with st := (is_timeout rc env s.st).2 } h3 h4
    split_ifs with ht hD
    · exact ⟨le_of_lt h4, fun _ => h4⟩
    · refine ⟨hinner.1, fun hf => ?_⟩
      rw [hD] at hf
      cases hf
    · have hDf : (seqHeaderLoop cfg rc env url m total t0
          (get_headers cfg rc)
          { s with st := (is_timeout rc env s.st).2 }).done = false := by
        simp only [Bool.not_eq_true] at hD
        exact hD
      exact ih _ hDf (hinner.2 hDf)

lemma seqUrlLoop_le (cfg : StaticCfg) (rc : RuntimeCfg) (env : Env)
    (total : Nat) (t0 : ℚ) :
    ∀ (urls : List String) (s : SeqLoop), s.done = false →
      s.acc.length < MAX_RESULT →
      (seqUrlLoop cfg rc env total t0 urls s).acc.length ≤ MAX_RESULT := by
  intro urls
  induction urls with
  | nil => intro s _ h4; exact le_of_lt h4
  | cons u rest ih =>
    intro s h3 h4
    unfold seqUrlLoop
    dsimp only
    have hinner := seqMethodLoop_le cfg rc env u total t0
      (get_methods cfg rc) { s with st := (is_timeout rc env s.st).2 } h3 h4
    split_ifs with ht hD
    · exact le_of_lt h4
    · exact hinner.1
    · have hDf : (seqMethodLoop cfg rc env u total t0
          (get_methods cfg rc)
          { s with st := (is_timeout rc env s.st).2 }).done = false := by
        simp only [Bool.not_eq_true] at hD
        exact hD
      exact ih _ hDf (hinner.2 hDf)

/-- The per-call cap bound for `_collect_threaded_result`'s loop, plus:
whenever the returned list has reached the cap, the cancellation flag
(remaining futures cancelled) was set. -/
lemma collect_aux_le (rc : RuntimeCfg) (env : Env) (total : Nat) :
    ∀ (events : List FutureEvent) (i : Nat) (acc : List String) (st : St),
      acc.length < MAX_RESULT →
      (collect_aux rc env total events i acc st).1.length ≤ MAX_RESULT ∧
      (MAX_RESULT ≤ (collect_aux rc env total events i acc st).1.length →
        (collect_aux rc env total events i acc st).2.1 = true) := by
  intro events
  induction events with
  | nil =>
    intro i acc st h
    refine ⟨le_of_lt h, fun hf => absurd hf ?_⟩
    rw [show (collect_aux rc env total [] i acc st).1 = acc from rfl]
    omega
  | cons e rest ih =>
    intro i acc st h
    unfold collect_aux
    dsimp only
    split_ifs with ht
    · exact ⟨le_of_lt h, fun _ => rfl⟩
    · split
      · split_ifs with hr hcap
        · refine ⟨?_, fun _ => rfl⟩
          simp only [List.length_append, List.length_cons, List.length_nil]
          omega
        · refine ih _ _ _ ?_
          simp only [ge_iff_le, not_le, List.length_append,
            List.length_cons, List.length_nil] at hcap ⊢
          omega
        · exact ih _ _ _ h
      · exact ih _ _ _ h
      · exact ih _ _ _ h

lemma collect_threaded_result_le (rc : RuntimeCfg) (env : Env)
    (events : List FutureEvent) (st : St) :
    (collect_threaded_result rc env events st).1.length ≤ MAX_RESULT ∧
    (MAX_RESULT ≤ (collect_threaded_result rc env events st).1.length →
      (collect_threaded_result rc env events st).2.1 = true) := by
  unfold collect_threaded_result
  exact collect_aux_le rc env events.length events 1 [] st
    (by norm_num [MAX_RESULT])

/-- C1 (amended): the result cap is enforced per dispatch call —
`_run_sequential` returns at most `MAX_RESULT` records however long its
task list, `_collect_threaded_result` likewise and it reports the
remaining futures cancelled whenever its output has reached the cap, and
the sequential loop's `return`-taken flag is set whenever its accumulator
reaches the cap (no further task is started within that call).  The
aggregate result set of a run is not capped: the batch and multi-target
loops concatenate per-dispatch outputs unchecked (see the
counterexample). -/
theorem result_cap_per_dispatch (cfg : StaticCfg) (rc : RuntimeCfg)
    (env : Env) :
    (∀ (urls : List String) (st : St),
      (run_sequential cfg rc env urls st).1.length ≤ MAX_RESULT) ∧
    (∀ (events : List FutureEvent) (st : St),
      (collect_threaded_result rc env events st).1.length ≤ MAX_RESULT) ∧
    (∀ (events : List FutureEvent) (st : St),
      MAX_RESULT ≤ (collect_threaded_result rc env events st).1.length →
      (collect_threaded_result rc env events st).2.1 = true) ∧
    (∀ (url method : String) (total : Nat) (t0 : ℚ) (hs : List Header)
        (s : SeqLoop), s.done = false → s.acc.length < MAX_RESULT →
      MAX_RESULT
          ≤ (seqHeaderLoop cfg rc env url method total t0 hs s).acc.length →
      (seqHeaderLoop cfg rc env url method total t0 hs s).done = true) := by
  refine ⟨?_, fun events st => (collect_threaded_result_le rc env events
    st).1, fun events st => (collect_threaded_result_le rc env events st).2,
    ?_⟩
  · intro urls st
    unfold run_sequential readClock
    dsimp only
    exact seqUrlLoop_le cfg rc env _ _ urls _ rfl (by norm_num [MAX_RESULT])
  · intro url method total t0 hs s h3 h4 hcap
    have hle := seqHeaderLoop_le cfg rc env url method total t0 hs s h3 h4
    cases hdd : (seqHeaderLoop cfg rc env url method total t0 hs s).done
    · exact absurd hcap (by have := hle.2 hdd; omega)
    · rfl

/-- Witness for C1's amended theorem: a one-task sequential call stays
below the cap; a single header step on an accumulator one short of the
cap reaches it and sets the `return` flag. -/
def w1s : SeqLoop :=
  { acc := List.replicate 9999 "r", cur := 0, st := mkInitSt scnCfg
    done := false }

theorem result_cap_per_dispatch_witness :
    (run_sequential scnCfg scnRc scnEnv ["http://example.com/admin"]
        (mkInitSt scnCfg)).1.length ≤ MAX_RESULT ∧
    (seqHeaderLoop scnCfg scnRc scnEnv "u" "GET" 1 0 [[]] w1s).done
      = true :=
  ⟨(result_cap_per_dispatch scnCfg scnRc scnEnv).1 ["http://example.com/admin"]
      (mkInitSt scnCfg),
    (result_cap_per_dispatch scnCfg scnRc scnEnv).2.2.2 "u" "GET" 1 0 [[]]
      w1s rfl (by norm_num [w1s, MAX_RESULT])
      (by
        have hl := seqHeaderLoop_len scnCfg scnRc scnEnv "u" "GET" 1 0 rfl
          [[]] w1s rfl rfl rfl (by norm_num [w1s, MAX_RESULT])
        rw [hl.1]
        norm_num [w1s, MAX_RESULT])⟩

/-- A batch-loop step under no limits and a nonempty batch: dispatch the
batch's URL variations and extend the aggregate accumulator unchecked. -/
lemma process_batches_cons_eq (cfg : StaticCfg) (rc : RuntimeCfg) (env : Env)
    (batch : List String) (rest : List (List String)) (acc : List String)
    (st : St) (hrc : rc.time = none) (hstop : st.stop_event = false)
    (hcur : st.current_url_start_time = none)
    (hne : (batch.flatMap (generate_url_variations st.base_url)).isEmpty
        = false) :
    process_batches cfg rc env (batch :: rest) acc st
      = process_batches cfg rc env rest
          (acc ++ (run_fuzz_threading cfg rc env
            (batch.flatMap (generate_url_variations st.base_url))
            { st with clk := st.clk + 1 }).1)
          (run_fuzz_threading cfg rc env
            (batch.flatMap (generate_url_variations st.base_url))
            { st with clk := st.clk + 1 }).2 := by
  conv_lhs => rw [process_batches]
  dsimp only
  rw [is_timeout_global_none rc env st hrc hstop]
  dsimp only
  simp only [Bool.false_eq_true, reduceIte]
  rw [is_per_url_timeout_unset rc env _ (by simp [hcur])]
  dsimp only
  simp only [Bool.false_eq_true, reduceIte]
  rw [if_neg (by simp [hne])]

/-- The counterexample configuration: two paths, batch size 1, one
method, 600 file-provided header mappings — 18 · 600 = 10800 tasks per
batch, two batches. -/
def c1Cfg : StaticCfg :=
  { base_url := "http://example.com"
    path_file := ["a", "b"]
    url_file := []
    method_file := []
    header_file := List.replicate 600 [("X", "y")]
    header := none
    format_time_remaining := fun _ => "t"
    color_status_code := fun _ r => r }

def c1Rc : RuntimeCfg := { scnRc with path_batch_size := 1 }

set_option maxRecDepth 8000 in
/-- Both batches of the counterexample dispatch 10800 tasks, each capped
at 10000 results, and the batch loop concatenates: 20000 aggregate
results. -/
lemma c1_two_batches (st : St) (hstop : st.stop_event = false)
    (hcur : st.current_url_start_time = none)
    (hbase : st.base_url = "http://example.com") :
    (process_batches c1Cfg c1Rc scnEnv [["a"], ["b"]] [] st).1.length
      = 20000 := by
  rw [process_batches_cons_eq c1Cfg c1Rc scnEnv ["a"] [["b"]] [] st rfl
    hstop hcur (by rw [hbase]; decide)]
  set R1 := run_fuzz_threading c1Cfg c1Rc scnEnv
    (["a"].flatMap (generate_url_variations st.base_url))
    { st with clk := st.clk + 1 } with hR1
  have hst2_stop : R1.2.stop_event = false := by
    rw [hR1, run_fuzz_threading_ntstop c1Cfg c1Rc scnEnv _ _ rfl]
    simp [hstop]
  have hst2_cur : R1.2.current_url_start_time = none := by
    rw [hR1, (run_fuzz_threading_dframe c1Cfg c1Rc scnEnv _ _).2.1]
    simp [hcur]
  have hst2_base : R1.2.base_url = "http://example.com" := by
    rw [hR1, (run_fuzz_threading_dframe c1Cfg c1Rc scnEnv _ _).2.2.1]
    simp [hbase]
  have hlen1 : R1.1.length = 10000 := by
    rw [hR1, (run_fuzz_threading_len c1Cfg c1Rc scnEnv
      (["a"].flatMap (generate_url_variations st.base_url))
      { st with clk := st.clk + 1 } (by decide) rfl (by simp [hstop])
      (by simp [hcur])).1]
    rw [show (["a"].flatMap (generate_url_variations st.base_url)).length
        = 18 from rfl,
      show (get_methods c1Cfg c1Rc).length = 1 from by decide,
      show (get_headers c1Cfg c1Rc).length = 600 from by decide]
    decide
  rw [process_batches_cons_eq c1Cfg c1Rc scnEnv ["b"] [] ([] ++ R1.1) R1.2
    rfl hst2_stop hst2_cur (by rw [hst2_base]; decide)]
  set R2 := run_fuzz_threading c1Cfg c1Rc scnEnv
    (["b"].flatMap (generate_url_variations R1.2.base_url))
    { R1.2 with clk := R1.2.clk + 1 } with hR2
  have hlen2 : R2.1.length = 10000 := by
    rw [hR2, (run_fuzz_threading_len c1Cfg c1Rc scnEnv
      (["b"].flatMap (generate_url_variations R1.2.base_url))
      { R1.2 with clk := R1.2.clk + 1 } (by decide) rfl
      (by simp [hst2_stop]) (by simp [hst2_cur])).1]
    rw [show (["b"].flatMap (generate_url_variations R1.2.base_url)).length
        = 18 from rfl,
      show (get_methods c1Cfg c1Rc).length = 1 from by decide,
      show (get_headers c1Cfg c1Rc).length = 600 from by decide]
    decide
  rw [show process_batches c1Cfg c1Rc scnEnv [] (([] ++ R1.1) ++ R2.1) R2.2
      = ((([] ++ R1.1) ++ R2.1), R2.2) from rfl]
  simp only [List.nil_append, List.length_append, hlen1, hlen2]

/-- C1 counterexample: a whole run over two single-path batches, each
dispatching 10800 tasks, returns an aggregate result list of 20000
records — twice the configured maximum of 10000.  The cap is enforced
only inside each dispatch call; `_process_paths_for_base_url` extends
the aggregate list unchecked. -/
theorem aggregate_result_cap_exceeded_cex :
    MAX_RESULT = 10000 ∧
    (fuzzer_run c1Cfg c1Rc scnEnv (mkInitSt c1Cfg)).1.length = 20000 := by
  refine ⟨rfl, ?_⟩
  unfold fuzzer_run
  dsimp only
  rw [finalize_results_fst, if_neg (by decide), if_pos (by decide)]
  unfold process_paths_for_base_url
  have hch : chunks c1Rc.path_batch_size c1Cfg.path_file = [["a"], ["b"]] :=
    by decide
  rw [hch]
  exact c1_two_batches _ rfl rfl rfl

end Bypass403
